import Mathlib

/-!
# Verification of the mcp-orchestrator reconciliation engine

A shallow embedding of the reconciliation engine of the `mcp-orchestrator`
repository, together with proofs and refutations of the specification's
claims about it.

Embedding conventions:

* Python dictionaries are modelled as association lists (`List (k × v)`);
  `dict[k] = v` is `dictInsert` (replace the first binding in place, else
  append), `k in d` is key membership, iteration follows list order, exactly
  as Python dict insertion order does.
* Remote systems (the AWS elbv2 API, the Docker / docker-compose runtime)
  are modelled as explicit state (`AlbState`, `ComposeState`) threaded
  through the functions that the Python code runs against these systems;
  each state-changing remote call additionally appends an `AlbOp` to a
  trace so that ordering claims can be stated.  Reads are pure lookups.
* Remote calls succeed unless said otherwise; the delete calls exercised by
  the error-handling claims take an `AlbEnv` failure oracle (a `false`
  answer models the call raising `ClientError`, which the Python code
  catches).  A fallible call made repeatedly is an oracle `Nat → Except`
  indexed by the attempt number.
* Provider-assigned identifiers (target group / rule ARNs) are modelled as
  deterministic functions of the resource's identifying attribute, and the
  EC2 host identity as the code's own fallback value `"i-dummy"`.
-/

namespace MCPOrch

/-! ## Association-list helpers (Python dict semantics) -/

/-- Python `d[k] = v`: replace the first binding of `k` in place, otherwise
append the new binding at the end (dict insertion order). -/
def dictInsert {α : Type} (k : String) (v : α) : List (String × α) → List (String × α)
  | [] => [(k, v)]
  | (k', v') :: t => if k' = k then (k, v) :: t else (k', v') :: dictInsert k v t

/-- Python `d.get(k)`. -/
def dictLookup {α : Type} (k : String) (l : List (String × α)) : Option α :=
  (l.find? (fun p => p.1 == k)).map (·.2)

/-- Python `d.get(k, default)` for string-valued dicts (used for labels). -/
def labelLookup (labels : List (String × String)) (key dflt : String) : String :=
  match labels.find? (fun p => p.1 == key) with
  | some p => p.2
  | none => dflt

/-! ## ConfigManager (`src/orchestrator/config_manager.py`) -/

/-- One entry of the compose file's `services:` section.  Only the `labels`
mapping is consulted by the engine (`mcp.disabled`, `mcp.path`); the
remaining compose keys are never read, so they are not modelled.  The code
also accepts list-form labels and converts them to a dict first; we model
the resulting dict. -/
structure ServiceConfig where
  labels : List (String × String)
deriving DecidableEq, Repr

/-- `ConfigManager.compose_data` after `_load_compose_data` has normalised
it: a dict that always has a `services` key. -/
structure ComposeData where
  services : List (String × ServiceConfig)
deriving DecidableEq, Repr

/-- The reset value `{"version": "3", "services": {}}` the loader installs
on every failure path. -/
def emptyComposeData : ComposeData := ⟨[]⟩

/-- The possible outcomes of opening and parsing the compose file, the
input over which `_load_compose_data` branches:
`fileMissing` = `os.path.exists` is false; `yamlError` = `yaml.safe_load`
raises `yaml.YAMLError`; `readError` = any other exception while reading;
`docWithoutServices` = the YAML parsed but has no `services` key (this also
covers `safe_load` returning a falsy document, which the `or {}` turns into
`{}`); `doc ss` = a well-formed document with services section `ss`. -/
inductive ComposeReadResult where
  | fileMissing
  | yamlError
  | readError
  | docWithoutServices
  | doc (services : List (String × ServiceConfig))
deriving DecidableEq, Repr

/-- `ConfigManager._load_compose_data`, as a function of the previous
in-memory state `prev` (`self.compose_data`) and the read outcome.  Every
failure branch assigns `self.compose_data = {"version": "3", "services": {}}`
(the `fileMissing` and `docWithoutServices` branches additionally write a
default file, a side effect not modelled); the previous state is never
consulted.  All exceptions are caught inside the function. -/
def load_compose_data (prev : ComposeData) (r : ComposeReadResult) : ComposeData :=
  match r with
  | .fileMissing => emptyComposeData
  | .yamlError => emptyComposeData
  | .readError => emptyComposeData
  | .docWithoutServices => emptyComposeData
  | .doc ss => { services := ss }

/-- The per-service metadata `get_mcp_servers` extracts from the labels
(the `service_config` passthrough field is the `ServiceConfig` itself and
is not duplicated here). -/
structure McpServerMeta where
  disabled : Bool
  path : String
deriving DecidableEq, Repr

/-- Python `str.lower()`: lowercase character by character. -/
def pyToLower (s : String) : String := String.mk (s.data.map Char.toLower)

/-- `ConfigManager.get_mcp_servers`: one entry per service of the compose
file, with `disabled` read from label `mcp.disabled` (string-compared to
`"true"` after lowercasing) and `path` from label `mcp.path` with default
`/mcp/<service_id>`. -/
def get_mcp_servers (c : ComposeData) : List (String × McpServerMeta) :=
  c.services.map (fun p =>
    (p.1, { disabled := pyToLower (labelLookup p.2.labels "mcp.disabled" "false") == "true",
            path := labelLookup p.2.labels "mcp.path" ("/mcp/" ++ p.1) }))

/-! ## ContainerManager retry structure (`src/orchestrator/container_manager.py`) -/

/-- The `tenacity` `@retry(stop=stop_after_attempt(maxAttempts))` combinator:
run the wrapped body on successive attempt indices until it returns instead
of raising, for at most the given number of attempts; when the last attempt
also raises, the failure propagates.  The backoff
(`wait_exponential(multiplier=1, min=2, max=10)`) only inserts sleeps
between attempts and does not affect the value computed. -/
def runWithRetry {α : Type} (op : Nat → Except String α) : Nat → Nat → Except String α
  | _, 0 => .error "retry exhausted"
  | i, n + 1 =>
    match op i with
    | .ok a => .ok a
    | .error e => if n = 0 then .error e else runWithRetry op (i + 1) n

/-- The body of `ContainerManager.create_container` (the part inside
`try`/`except`), at attempt `i`, abstracting the actual remote work as the
oracle `op`: when the remote work raises, the `except Exception` branch
logs and returns `None` — it does not re-raise. -/
def create_container_body (op : Nat → Except String String) (i : Nat) :
    Except String (Option String) :=
  match op i with
  | .ok cid => .ok (some cid)
  | .error _ => .ok none

/-- `ContainerManager.create_container`: the body above wrapped in
`@retry(stop=stop_after_attempt(3), wait=wait_exponential(multiplier=1, min=2, max=10))`. -/
def create_container (op : Nat → Except String String) : Except String (Option String) :=
  runWithRetry (create_container_body op) 0 3

/-- `ContainerManager.stop_container`: it carries no retry decorator, so the
remote stop/remove work (oracle `op`) is attempted exactly once — only
`op 0` is ever consulted.  An absent container (`present = false`) is
success; a raising remote call is caught and becomes `False`. -/
def stop_container (present : Bool) (op : Nat → Except String Unit) : Bool :=
  if present then
    match op 0 with
    | .ok _ => true
    | .error _ => false
  else true

/-- `ContainerManager.restart_container`: no retry decorator either; a
single attempt `op 0`.  An absent container returns `False` here. -/
def restart_container (present : Bool) (op : Nat → Except String Unit) : Bool :=
  if present then
    match op 0 with
    | .ok _ => true
    | .error _ => false
  else false

/-! ## Port allocation (`ContainerManager._find_available_port`) -/

/-- The scan loop of `_find_available_port`: try `n` consecutive ports
starting at `p`; a port recorded in `allocated` is skipped (`continue`);
otherwise it is probed with a TCP connect — `probe q = true` models
`connect_ex != 0`, i.e. the connect failed and the port is free.  The first
free probe wins; an exhausted range raises `RuntimeError`. -/
def findPortGo (allocated : List Nat) (probe : Nat → Bool) : Nat → Nat → Except String Nat
  | _, 0 => .error "No available ports in range"
  | p, n + 1 =>
    if allocated.contains p then findPortGo allocated probe (p + 1) n
    else if probe p then .ok p
    else findPortGo allocated probe (p + 1) n

/-- `ContainerManager._find_available_port`: scan
`range(port_range_start, port_range_end + 1)` in ascending order. -/
def find_available_port (port_range_start port_range_end : Nat)
    (allocated : List Nat) (probe : Nat → Bool) : Except String Nat :=
  findPortGo allocated probe port_range_start (port_range_end + 1 - port_range_start)

/-- The allocation call site in `create_container`
(`host_port = self._find_available_port(); self.port_allocations[server_id] = host_port`):
the set of cached ports that the scan skips is `port_allocations.values()`,
and the returned port is recorded in the cache under `server_id`. -/
def allocate_port (port_range_start port_range_end : Nat)
    (allocs : List (String × Nat)) (probe : Nat → Bool) (server_id : String) :
    Except String (Nat × List (String × Nat)) :=
  match find_available_port port_range_start port_range_end (allocs.map (·.2)) probe with
  | .ok p => .ok (p, dictInsert server_id p allocs)
  | .error e => .error e

/-! ## ALB data model (`src/orchestrator/alb_manager.py`) -/

/-- Python `str.isalnum` (the engine only ever produces ASCII ids, where
`Char.isAlphanum` agrees with Python). -/
def pyIsAlnum (c : Char) : Bool := c.isAlphanum

/-- `ALBManager._get_target_group_name`:
`''.join(c if c.isalnum() else '-' for c in server_id)` prefixed with
`tg-mcp-` and sliced to the first 32 code points (`[:32]`). -/
def get_target_group_name (server_id : String) : String :=
  String.mk ((("tg-mcp-").data ++
    server_id.data.map (fun c => if pyIsAlnum c then c else '-')).take 32)

/-- `ALBManager._get_path_pattern`. -/
def get_path_pattern (server_id : String) : String := "/mcp/" ++ server_id ++ "/*"

/-- A rule's `Priority` field: the literal string `"default"` on the
listener's default rule, or a numeral the code converts with `int(...)`. -/
inductive RulePriority where
  | dflt
  | num (n : Nat)
deriving DecidableEq, Repr

/-- The numeric priorities gathered by `_get_next_available_priority`'s
first loop (the `"default"` rule is skipped). -/
def numericPriorities (ps : List RulePriority) : List Nat :=
  ps.filterMap (fun p => match p with | .dflt => none | .num n => some n)

/-- `ALBManager._get_next_available_priority`, as a function of the
priorities of the rules `describe_rules` returned.  `priorities.sort()`
followed by `priorities[-1]` reads the maximum, so the scan
`for i in range(1, priorities[-1] + 2)` is modelled with
`List.range' 1 (maxP + 1)`, i.e. the integers `1 .. maxP + 1`; the final
`return priorities[-1] + 1` is the (dead) fallthrough.  The `except
ClientError` fallback of 1000 concerns a failing enumeration call and is
outside this happy-path model. -/
def get_next_available_priority (rulePriorities : List RulePriority) : Nat :=
  let priorities := numericPriorities rulePriorities
  if priorities.isEmpty then 1
  else
    let maxP := priorities.foldr max 0
    match (List.range' 1 (maxP + 1)).find? (fun i => !(priorities.contains i)) with
    | some i => i
    | none => maxP + 1

/-- One entry of a rule's `Actions` list. -/
structure RuleAction where
  actionType : String
  targetGroupArn : String
deriving DecidableEq, Repr

/-- One entry of a rule's `Conditions` list. -/
structure RuleCondition where
  field : String
  values : List String
deriving DecidableEq, Repr

/-- A listener rule as returned by `describe_rules`. -/
structure ListenerRule where
  arn : String
  priority : RulePriority
  conditions : List RuleCondition
  actions : List RuleAction
deriving DecidableEq, Repr

/-- A target group together with its tags (the code reads tags back via
`describe_tags`; we keep them on the record). -/
structure TargetGroup where
  name : String
  arn : String
  port : Nat
  tags : List (String × String)
deriving DecidableEq, Repr

/-- The load balancer's state: its target groups, the listener's rules, and
the registered targets `(target group arn, instance id, port)`.  Target
registration is idempotent on the provider side, so `targets` is kept
duplicate-free by `register_target`. -/
structure AlbState where
  targetGroups : List TargetGroup
  rules : List ListenerRule
  targets : List (String × String × Nat)
deriving DecidableEq, Repr

/-- The state-changing elbv2 calls, recorded in order so that ordering
claims (rule deleted before its target group) can be stated. -/
inductive AlbOp where
  | createTG (name : String)
  | addTags (arn : String)
  | registerTargets (arn : String) (port : Nat)
  | createRule (arn : String)
  | modifyRule (arn : String)
  | deleteRule (arn : String)
  | deleteTG (arn : String)
deriving DecidableEq, Repr

/-- The world an `ALBManager` instance acts on: the remote `AlbState`, the
instance's `self.target_groups` cache (server id → target group ARN), and
the call trace. -/
structure AlbW where
  aws : AlbState
  tgCache : List (String × String)
  trace : List AlbOp
deriving DecidableEq, Repr

/-- Failure oracle for the delete calls (`client.delete_rule`,
`client.delete_target_group`), indexed by the resource ARN: `false` models
the call raising `ClientError`, which the Python wrappers catch and turn
into a `False` return. -/
structure AlbEnv where
  deleteRuleOk : String → Bool
  deleteTGOk : String → Bool

/-- The all-calls-succeed environment. -/
def envOk : AlbEnv := ⟨fun _ => true, fun _ => true⟩

/-- Deterministic stand-in for the provider-assigned target group ARN. -/
def mkTargetGroupArn (name : String) : String := "arn:tg/" ++ name

/-- The ARN of the target group the engine derives for `server_id`. -/
def tgArnOf (server_id : String) : String :=
  mkTargetGroupArn (get_target_group_name server_id)

/-- Deterministic stand-in for the provider-assigned rule ARN. -/
def mkRuleArn (pattern : String) : String := "arn:rule/" ++ pattern

/-- `ALBManager._target_group_exists`: `describe_target_groups(Names=[name])`
finds the target group with that name, if any (names are unique on the
provider; `find?` returns the first). -/
def target_group_exists (st : AlbState) (name : String) : Option String :=
  (st.targetGroups.find? (fun tg => tg.name == name)).map (·.arn)

/-- The match performed by `_rule_exists_for_path`'s inner loops: some
condition has `Field == 'path-pattern'` and contains the pattern among its
`Values`. -/
def ruleMatchesPath (pattern : String) (r : ListenerRule) : Bool :=
  r.conditions.any (fun c => c.field == "path-pattern" && c.values.contains pattern)

/-- `ALBManager._rule_exists_for_path`: the first rule on the listener with
a path-pattern condition equal to `pattern`. -/
def rule_exists_for_path (st : AlbState) (pattern : String) : Option ListenerRule :=
  st.rules.find? (ruleMatchesPath pattern)

/-- `ALBManager.create_target_group` (happy path: the create/tag calls do
not raise).  Reuse an existing group by derived name, else look up the
port via `container_manager.get_port_for_server` (`ports`), create the
group, cache its ARN under `server_id` and attach the management tags.
Returns `none` when no port is known (`"No port found"`). -/
def create_target_group (ports : String → Option Nat) (server_id : String)
    (w : AlbW) : AlbW × Option String :=
  let name := get_target_group_name server_id
  match target_group_exists w.aws name with
  | some existingArn =>
      ({ w with tgCache := dictInsert server_id existingArn w.tgCache }, some existingArn)
  | none =>
      match ports server_id with
      | none => (w, none)
      | some port =>
        let arn := mkTargetGroupArn name
        let tg : TargetGroup :=
          { name := name, arn := arn, port := port,
            tags := [("Name", name), ("ManagedBy", "mcp-orchestrator"),
                     ("MCPService", server_id)] }
        ({ aws := { w.aws with targetGroups := w.aws.targetGroups ++ [tg] },
           tgCache := dictInsert server_id arn w.tgCache,
           trace := w.trace ++ [.createTG name, .addTags arn] }, some arn)

/-- The registration step of `register_target` once the target group ARN is
known: look up the port, register `(instance, port)` with the group (the
EC2 instance id resolves to the code's fallback `"i-dummy"`; the provider
deduplicates re-registration). -/
def register_target_with (ports : String → Option Nat) (server_id : String)
    (arn : String) (w : AlbW) : AlbW × Bool :=
  match ports server_id with
  | none => (w, false)
  | some port =>
    let tgt := (arn, "i-dummy", port)
    let targets' := if w.aws.targets.contains tgt then w.aws.targets
                    else w.aws.targets ++ [tgt]
    ({ w with
       aws := { w.aws with targets := targets' },
       trace := w.trace ++ [.registerTargets arn port] }, true)

/-- `ALBManager.register_target`: resolve the ARN from the cache, falling
back to `create_target_group`, then register. -/
def register_target (ports : String → Option Nat) (server_id : String)
    (w : AlbW) : AlbW × Bool :=
  match dictLookup server_id w.tgCache with
  | some arn => register_target_with ports server_id arn w
  | none =>
    match create_target_group ports server_id w with
    | (w', some arn) => register_target_with ports server_id arn w'
    | (w', none) => (w', false)

/-- `client.modify_rule`: replace the actions of the rule with the given
ARN, leaving everything else in place. -/
def modify_rule_actions (st : AlbState) (ruleArn : String)
    (acts : List RuleAction) : AlbState :=
  { st with rules := st.rules.map (fun r =>
      if r.arn == ruleArn then { r with actions := acts } else r) }

/-- The check of `create_listener_rule`'s action loop:
`action.get('Type') == 'forward' and action.get('TargetGroupArn') == target_group_arn`. -/
def forwardsTo (tgArn : String) (a : RuleAction) : Bool :=
  a.actionType == "forward" && a.targetGroupArn == tgArn

/-- The body of `create_listener_rule` once the target group ARN is known:
if a rule for the service's path pattern exists and one of its actions
already forwards to `tgArn`, return it untouched; if it exists but forwards
elsewhere, `modify_rule` its actions in place; otherwise `create_rule` with
the next free priority, the path-pattern condition and a forward action. -/
def create_listener_rule_with (server_id : String) (tgArn : String)
    (w : AlbW) : AlbW × Option String :=
  let pattern := get_path_pattern server_id
  match rule_exists_for_path w.aws pattern with
  | some r =>
    if r.actions.any (forwardsTo tgArn) then
      (w, some r.arn)
    else
      ({ w with
         aws := modify_rule_actions w.aws r.arn [⟨"forward", tgArn⟩],
         trace := w.trace ++ [.modifyRule r.arn] }, some r.arn)
  | none =>
    let prio := get_next_available_priority (w.aws.rules.map (·.priority))
    let rArn := mkRuleArn pattern
    let newRule : ListenerRule :=
      { arn := rArn, priority := .num prio,
        conditions := [⟨"path-pattern", [pattern]⟩],
        actions := [⟨"forward", tgArn⟩] }
    ({ w with
       aws := { w.aws with rules := w.aws.rules ++ [newRule] },
       trace := w.trace ++ [.createRule rArn] }, some rArn)

/-- `ALBManager.create_listener_rule` (happy path): resolve the target
group ARN from the cache, falling back to `create_target_group`, then run
the rule convergence body. -/
def create_listener_rule (ports : String → Option Nat) (server_id : String)
    (w : AlbW) : AlbW × Option String :=
  match dictLookup server_id w.tgCache with
  | some arn => create_listener_rule_with server_id arn w
  | none =>
    match create_target_group ports server_id w with
    | (w', some arn) => create_listener_rule_with server_id arn w'
    | (w', none) => (w', none)

/-- The result dict of `setup_alb_for_server`. -/
structure SetupResult where
  target_group_created : Bool
  target_registered : Bool
  rule_created : Bool
  errors : List String
deriving DecidableEq, Repr

/-- `ALBManager.setup_alb_for_server`: chain target group, registration and
rule, stopping at the first failed step and recording its error. -/
def setup_alb_for_server (ports : String → Option Nat) (server_id : String)
    (w : AlbW) : AlbW × SetupResult :=
  match create_target_group ports server_id w with
  | (w1, none) => (w1, ⟨false, false, false, ["Failed to create target group"]⟩)
  | (w1, some _) =>
    match register_target ports server_id w1 with
    | (w2, false) => (w2, ⟨true, false, false, ["Failed to register target"]⟩)
    | (w2, true) =>
      match create_listener_rule ports server_id w2 with
      | (w3, none) => (w3, ⟨true, true, false, ["Failed to create listener rule"]⟩)
      | (w3, some _) => (w3, ⟨true, true, true, []⟩)

/-- `ALBManager.delete_rule_for_server`: find the rule by path pattern; an
absent rule is success; a `delete_rule` call that raises (the `env` oracle
answering `false`) is caught and returns `False`. -/
def delete_rule_for_server (env : AlbEnv) (server_id : String)
    (w : AlbW) : AlbW × Bool :=
  let pattern := get_path_pattern server_id
  match rule_exists_for_path w.aws pattern with
  | none => (w, true)
  | some r =>
    if env.deleteRuleOk r.arn then
      ({ w with
         aws := { w.aws with rules := w.aws.rules.filter (fun r' => r'.arn != r.arn) },
         trace := w.trace ++ [.deleteRule r.arn] }, true)
    else (w, false)

/-- `ALBManager.delete_target_group_for_server`: find the group by derived
name; an absent group is success; on successful deletion the cache entry
for `server_id` is also dropped. -/
def delete_target_group_for_server (env : AlbEnv) (server_id : String)
    (w : AlbW) : AlbW × Bool :=
  let name := get_target_group_name server_id
  match target_group_exists w.aws name with
  | none => (w, true)
  | some arn =>
    if env.deleteTGOk arn then
      ({ aws := { w.aws with targetGroups := w.aws.targetGroups.filter (fun tg => tg.arn != arn) },
         tgCache := w.tgCache.filter (fun p => p.1 != server_id),
         trace := w.trace ++ [.deleteTG arn] }, true)
    else (w, false)

/-- The result dict of `cleanup_alb_for_server`. -/
structure CleanupResult where
  rule_deleted : Bool
  target_group_deleted : Bool
  errors : List String
deriving DecidableEq, Repr

/-- `ALBManager.cleanup_alb_for_server`: delete the rule first, then the
target group, recording an error string for each failed half. -/
def cleanup_alb_for_server (env : AlbEnv) (server_id : String)
    (w : AlbW) : AlbW × CleanupResult :=
  let step1 := delete_rule_for_server env server_id w
  let step2 := delete_target_group_for_server env server_id step1.1
  (step2.1,
   { rule_deleted := step1.2, target_group_deleted := step2.2,
     errors := (if step1.2 then [] else ["Failed to delete listener rule"]) ++
               (if step2.2 then [] else ["Failed to delete target group"]) })

/-- `get_container_info` summary as consumed by `sync_alb` (only the
`exists` and `running` keys are read). -/
structure ContainerInfo where
  containerExists : Bool
  running : Bool
deriving DecidableEq, Repr

/-- The result dict of `sync_alb`. -/
structure SyncAlbResult where
  created : List String
  updated : List String
  deleted : List String
  errors : List String
deriving DecidableEq, Repr

/-- `tag.get('Key') == 'ManagedBy' and tag.get('Value') == 'mcp-orchestrator'`
over the group's tags. -/
def tgIsManaged (tg : TargetGroup) : Bool :=
  tg.tags.any (fun t => t.1 == "ManagedBy" && t.2 == "mcp-orchestrator")

/-- The `server_id` variable after `sync_alb`'s tag loop: the value of the
last `MCPService` tag, if any. -/
def tgServiceTag (tg : TargetGroup) : Option String :=
  tg.tags.foldl (fun acc t => if t.1 == "MCPService" then some t.2 else acc) none

/-- The per-service body of `sync_alb`'s first loop: disabled services are
cleaned up (the cleanup result is discarded) and appended to `deleted`;
services without an existing running container are skipped; otherwise
`setup_alb_for_server` runs and either its errors are recorded (prefixed
with the server id) or the id is filed under `created` (both the target
group and rule steps reported success) or `updated`. -/
def sync_alb_service_step (env : AlbEnv) (ports : String → Option Nat)
    (cinfo : String → ContainerInfo) (acc : AlbW × SyncAlbResult)
    (entry : String × McpServerMeta) : AlbW × SyncAlbResult :=
  let w := acc.1
  let res := acc.2
  let sid := entry.1
  if entry.2.disabled then
    let cl := cleanup_alb_for_server env sid w
    (cl.1, { res with deleted := res.deleted ++ [sid] })
  else
    let info := cinfo sid
    if !info.containerExists || !info.running then (w, res)
    else
      let su := setup_alb_for_server ports sid w
      if su.2.errors.isEmpty then
        if su.2.target_group_created && su.2.rule_created then
          (su.1, { res with created := res.created ++ [sid] })
        else
          (su.1, { res with updated := res.updated ++ [sid] })
      else
        (su.1, { res with errors := res.errors ++ su.2.errors.map (fun e => sid ++ ": " ++ e) })

/-- The body of `sync_alb`'s orphan sweep for one target group of the
snapshot: a group carrying the management tag whose (truthy) `MCPService`
tag is not a key of the desired set is cleaned up (result again discarded)
and its id appended to `deleted`. -/
def sweep_step (env : AlbEnv) (desiredIds : List String)
    (acc : AlbW × SyncAlbResult) (tg : TargetGroup) : AlbW × SyncAlbResult :=
  let w := acc.1
  let res := acc.2
  match tgServiceTag tg with
  | some sid =>
    if tgIsManaged tg && sid != "" && !(desiredIds.contains sid) then
      let cl := cleanup_alb_for_server env sid w
      (cl.1, { res with deleted := res.deleted ++ [sid] })
    else (w, res)
  | none => (w, res)

/-- `ALBManager.sync_alb`: run the per-service loop over
`get_mcp_servers`, then sweep the snapshot of all target groups
(`describe_target_groups()` is called once, before any orphan cleanup). -/
def sync_alb (env : AlbEnv) (ports : String → Option Nat)
    (cinfo : String → ContainerInfo) (c : ComposeData) (w : AlbW) :
    AlbW × SyncAlbResult :=
  let mcp := get_mcp_servers c
  let step1 := mcp.foldl (sync_alb_service_step env ports cinfo) (w, ⟨[], [], [], []⟩)
  let snapshot := step1.1.aws.targetGroups
  snapshot.foldl (sweep_step env (mcp.map (·.1))) step1

/-! ## ComposeManager (`src/orchestrator/compose_manager.py`) -/

/-- The docker-compose runtime state visible to `ComposeManager`: the set
of currently running compose services (`docker compose ps --services`). -/
structure ComposeState where
  running : List String
deriving DecidableEq, Repr

/-- `ComposeManager._service_exists`. -/
def service_exists (st : ComposeState) (sid : String) : Bool :=
  st.running.contains sid

/-- `ComposeManager.start_service` (happy path: `docker compose up -d`
succeeds): refuses ids absent from the (re-loaded, unchanged) compose
file, otherwise ensures the service is running. -/
def start_service (c : ComposeData) (st : ComposeState) (sid : String) :
    ComposeState × Bool :=
  if (c.services.map (·.1)).contains sid then
    (if st.running.contains sid then st else { running := st.running ++ [sid] }, true)
  else (st, false)

/-- `ComposeManager.stop_service` (happy path): the service is no longer
running afterwards. -/
def stop_service (st : ComposeState) (sid : String) : ComposeState × Bool :=
  ({ running := st.running.filter (fun s => s != sid) }, true)

/-- `ComposeManager.restart_service` (happy path): a restart leaves the
running set unchanged. -/
def restart_service (st : ComposeState) (sid : String) : ComposeState × Bool :=
  (st, true)

/-- The result dict of `sync_services`. -/
structure SyncServicesResult where
  created : List String
  updated : List String
  stopped : List String
  errors : List String
deriving DecidableEq, Repr

/-- The per-service body of `sync_services`: disabled services are stopped
if running; absent services are started (`created`); present services are
restarted to pick up config changes (`updated`). -/
def sync_services_step (c : ComposeData) (acc : ComposeState × SyncServicesResult)
    (entry : String × McpServerMeta) : ComposeState × SyncServicesResult :=
  let st := acc.1
  let res := acc.2
  let sid := entry.1
  if entry.2.disabled then
    if service_exists st sid then
      let s := stop_service st sid
      if s.2 then (s.1, { res with stopped := res.stopped ++ [sid] }) else (s.1, res)
    else (st, res)
  else
    if !(service_exists st sid) then
      let s := start_service c st sid
      if s.2 then (s.1, { res with created := res.created ++ [sid] }) else (s.1, res)
    else
      let s := restart_service st sid
      if s.2 then (s.1, { res with updated := res.updated ++ [sid] }) else (s.1, res)

/-- The body of `sync_services`' orphaned-service cleanup loop for one
running service id: stop it when it is a key of the (re-loaded, unchanged)
compose file's `services` section but not of `get_mcp_servers`' result. -/
def sync_services_orphan_step (c : ComposeData)
    (acc : ComposeState × SyncServicesResult) (sid : String) :
    ComposeState × SyncServicesResult :=
  let st := acc.1
  let res := acc.2
  if !((get_mcp_servers c).map (·.1)).contains sid
      && (c.services.map (·.1)).contains sid then
    let s := stop_service st sid
    if s.2 then (s.1, { res with stopped := res.stopped ++ [sid] }) else (s.1, res)
  else (st, res)

/-- `ComposeManager.sync_services` under an unchanged compose file: the
per-service loop over `get_mcp_servers`, then the cleanup loop over the
currently running services (`_get_running_services`, taken after the first
loop) against the re-loaded compose data — the same `c`, since the file
did not change between the two reads. -/
def sync_services (c : ComposeData) (st : ComposeState) :
    ComposeState × SyncServicesResult :=
  let mcp := get_mcp_servers c
  let step1 := mcp.foldl (sync_services_step c) (st, ⟨[], [], [], []⟩)
  step1.1.running.foldl (sync_services_orphan_step c) step1

/-! ## Derived notions used in the claim statements -/

/-- The ids of the enabled services, in compose-file order. -/
def enabledIds (c : ComposeData) : List String :=
  ((get_mcp_servers c).filter (fun e => !e.2.disabled)).map (·.1)

/-- The ids of the disabled services, in compose-file order. -/
def disabledIds (c : ComposeData) : List String :=
  ((get_mcp_servers c).filter (fun e => e.2.disabled)).map (·.1)

/-- `occursBefore x y l`: some occurrence of `x` in `l` lies strictly
before some occurrence of `y` (equivalently, `y` occurs after the first
`x`). -/
def occursBefore {α : Type} [BEq α] (x y : α) : List α → Bool
  | [] => false
  | a :: t => if a == x then t.contains y else occursBefore x y t

/-- An ALB world with empty remote state (no target groups, rules or
targets) and no trace; the manager's ARN cache may hold anything. -/
def initAlbW (cache : List (String × String)) : AlbW := ⟨⟨[], [], []⟩, cache, []⟩

/-- A compose file with one enabled service `a` (no labels ⇒ enabled,
default path), used by concrete counterexamples and witnesses. -/
def composeA : ComposeData := ⟨[("a", ⟨[]⟩)]⟩

/-- A compose file with enabled `a` and disabled `b`. -/
def composeAB : ComposeData := ⟨[("a", ⟨[]⟩), ("b", ⟨[("mcp.disabled", "true")]⟩)]⟩

/-- Every service gets port 8000 (sufficient for single-service examples). -/
def constPorts : String → Option Nat := fun _ => some 8000

/-- Every container exists and runs. -/
def allRunning : String → ContainerInfo := fun _ => ⟨true, true⟩

/-- Every delete call raises (caught by the wrappers). -/
def envFail : AlbEnv := ⟨fun _ => false, fun _ => false⟩

/-- A compose file with a single disabled service `b`. -/
def composeB : ComposeData := ⟨[("b", ⟨[("mcp.disabled", "true")]⟩)]⟩

/-- A managed target group for a service `x` that is absent from the
desired set in the orphan scenarios. -/
def tgOrphan : TargetGroup :=
  ⟨"tg-mcp-x", "arn:tg/tg-mcp-x", 8000,
   [("Name", "tg-mcp-x"), ("ManagedBy", "mcp-orchestrator"), ("MCPService", "x")]⟩

/-- The routing rule associated with `tgOrphan`. -/
def ruleX : ListenerRule :=
  ⟨"ruleX-arn", .num 1, [⟨"path-pattern", ["/mcp/x/*"]⟩],
   [⟨"forward", "arn:tg/tg-mcp-x"⟩]⟩

/-- A world holding only the orphaned pair above. -/
def wOrphan : AlbW := ⟨⟨[tgOrphan], [ruleX], []⟩, [], []⟩

/-- A target group tagged as managed for the absent service `x` but NOT
carrying the name the engine derives for `x` (`tg-mcp-x`). -/
def tgWeird : TargetGroup :=
  ⟨"weird-name", "arn:tg/weird-name", 8000,
   [("ManagedBy", "mcp-orchestrator"), ("MCPService", "x")]⟩

/-- A world holding only the misnamed orphan. -/
def wWeird : AlbW := ⟨⟨[tgWeird], [], []⟩, [], []⟩

/-- The target group of service `a` in the rule-convergence scenarios. -/
def tgA : TargetGroup :=
  ⟨"tg-mcp-a", "arn:tg/tg-mcp-a", 8000,
   [("Name", "tg-mcp-a"), ("ManagedBy", "mcp-orchestrator"), ("MCPService", "a")]⟩

/-- A rule for `a`'s path already forwarding to `a`'s target group. -/
def ruleAGood : ListenerRule :=
  ⟨"ruleA-arn", .num 1, [⟨"path-pattern", ["/mcp/a/*"]⟩],
   [⟨"forward", "arn:tg/tg-mcp-a"⟩]⟩

/-- A rule for `a`'s path forwarding somewhere else. -/
def ruleABad : ListenerRule :=
  ⟨"ruleA-arn", .num 1, [⟨"path-pattern", ["/mcp/a/*"]⟩],
   [⟨"forward", "arn:tg/OTHER"⟩]⟩

/-- World with `a`'s target group, the already-correct rule, and a warm
ARN cache. -/
def wRuleGood : AlbW := ⟨⟨[tgA], [ruleAGood], []⟩, [("a", "arn:tg/tg-mcp-a")], []⟩

/-- Same world but the rule forwards elsewhere. -/
def wRuleBad : AlbW := ⟨⟨[tgA], [ruleABad], []⟩, [("a", "arn:tg/tg-mcp-a")], []⟩

/-- Same world with no rule for `a`'s path. -/
def wNoRule : AlbW := ⟨⟨[tgA], [], []⟩, [("a", "arn:tg/tg-mcp-a")], []⟩

/-- The target group `create_target_group` builds for `server_id` with host
port `p`. -/
def mkTG (sid : String) (p : Nat) : TargetGroup :=
  { name := get_target_group_name sid, arn := tgArnOf sid, port := p,
    tags := [("Name", get_target_group_name sid), ("ManagedBy", "mcp-orchestrator"),
             ("MCPService", sid)] }

/-- The rule `create_listener_rule` builds for `server_id` at priority
`prio` forwarding to `tgArn`. -/
def mkCreatedRule (sid : String) (tgArn : String) (prio : Nat) : ListenerRule :=
  { arn := mkRuleArn (get_path_pattern sid), priority := .num prio,
    conditions := [⟨"path-pattern", [get_path_pattern sid]⟩],
    actions := [⟨"forward", tgArn⟩] }

/-- The ALB resources of `server_id` are fully converged: its target group
exists under the derived name with the derived ARN, some rule for its path
pattern forwards to that ARN, the host is registered with the service's
port, and the manager's cache maps the id to the ARN. -/
def GoodFor (ports : String → Option Nat) (aws : AlbState)
    (cache : List (String × String)) (sid : String) : Prop :=
  target_group_exists aws (get_target_group_name sid) = some (tgArnOf sid) ∧
  (∃ r, rule_exists_for_path aws (get_path_pattern sid) = some r ∧
        r.actions.any (forwardsTo (tgArnOf sid)) = true) ∧
  (∃ p, ports sid = some p ∧ (tgArnOf sid, "i-dummy", p) ∈ aws.targets) ∧
  dictLookup sid cache = some (tgArnOf sid)

/-- No ALB resources exist for `server_id`: no target group under its
derived name and no rule for its path pattern. -/
def AbsentFor (aws : AlbState) (sid : String) : Prop :=
  target_group_exists aws (get_target_group_name sid) = none ∧
  rule_exists_for_path aws (get_path_pattern sid) = none

/-! ## General-purpose lemmas -/

theorem mem_le_foldr_max {l : List Nat} {x : Nat} (h : x ∈ l) : x ≤ l.foldr max 0 := by
  induction l with
  | nil => cases h
  | cons b t ih =>
    rcases List.mem_cons.mp h with rfl | h2
    · exact le_max_left _ _
    · exact le_trans (ih h2) (le_max_right _ _)

theorem find?_range'_min {p : Nat → Bool} :
    ∀ {n s a : Nat}, (List.range' s n).find? p = some a →
      ∀ j, s ≤ j → j < s + n → p j = true → a ≤ j := by
  intro n
  induction n with
  | zero =>
    intro s a h j _ _ _
    rw [show List.range' s 0 = [] from rfl] at h
    simp at h
  | succ m ih =>
    intro s a h j hsj hjn hpj
    rw [List.range'_succ] at h
    by_cases hs : p s = true
    · rw [List.find?_cons_of_pos _ hs] at h
      injection h with h
      omega
    · rw [List.find?_cons_of_neg _ hs] at h
      rcases Nat.eq_or_lt_of_le hsj with heq | hlt
      · exact absurd (heq ▸ hpj) hs
      · exact ih h j hlt (by omega) hpj

theorem dictLookup_dictInsert_self {α : Type} (k : String) (v : α) :
    ∀ (l : List (String × α)), dictLookup k (dictInsert k v l) = some v := by
  intro l
  induction l with
  | nil =>
    show dictLookup k [(k, v)] = some v
    unfold dictLookup
    rw [List.find?_cons_of_pos _ (by simp)]
    rfl
  | cons p t ih =>
    by_cases h : p.1 = k
    · rw [show dictInsert k v (p :: t) = (k, v) :: t by simp [dictInsert, h]]
      unfold dictLookup
      rw [List.find?_cons_of_pos _ (by simp)]
      rfl
    · rw [show dictInsert k v (p :: t) = p :: dictInsert k v t by simp [dictInsert, h]]
      unfold dictLookup at ih ⊢
      rw [List.find?_cons_of_neg _ (by simp [h])]
      exact ih

theorem dictLookup_dictInsert_of_ne {α : Type} (k k' : String) (v : α)
    (hne : k' ≠ k) :
    ∀ (l : List (String × α)), dictLookup k' (dictInsert k v l) = dictLookup k' l := by
  intro l
  induction l with
  | nil =>
    show dictLookup k' [(k, v)] = dictLookup k' []
    unfold dictLookup
    rw [List.find?_cons_of_neg _ (by simp [Ne.symm hne])]
  | cons p t ih =>
    by_cases h : p.1 = k
    · rw [show dictInsert k v (p :: t) = (k, v) :: t by simp [dictInsert, h]]
      unfold dictLookup
      rw [List.find?_cons_of_neg _ (by simp [Ne.symm hne]),
          List.find?_cons_of_neg _ (by simp [h ▸ Ne.symm hne])]
    · rw [show dictInsert k v (p :: t) = p :: dictInsert k v t by simp [dictInsert, h]]
      by_cases h2 : p.1 = k'
      · unfold dictLookup
        rw [List.find?_cons_of_pos _ (by simp [h2]),
            List.find?_cons_of_pos _ (by simp [h2])]
      · unfold dictLookup at ih ⊢
        rw [List.find?_cons_of_neg _ (by simp [h2]),
            List.find?_cons_of_neg _ (by simp [h2])]
        exact ih

theorem dictInsert_of_lookup_eq {α : Type} (k : String) (v : α) :
    ∀ (l : List (String × α)), dictLookup k l = some v → dictInsert k v l = l := by
  intro l
  induction l with
  | nil =>
    intro h
    simp [dictLookup] at h
  | cons p t ih =>
    intro h
    by_cases hk : p.1 = k
    · have hv : p.2 = v := by
        unfold dictLookup at h
        rw [List.find?_cons_of_pos _ (by simp [hk])] at h
        simpa using h
      have hp : p = (k, v) := by
        cases p
        simp_all
      simp [dictInsert, hk, hp]
    · have ht : dictLookup k t = some v := by
        unfold dictLookup at h ⊢
        rwa [List.find?_cons_of_neg _ (by simp [hk])] at h
      simp [dictInsert, hk, ih ht]

theorem find?_append_none {α : Type} {p : α → Bool} {l₁ l₂ : List α}
    (h : l₁.find? p = none) : (l₁ ++ l₂).find? p = l₂.find? p := by
  rw [List.find?_append, h, Option.none_or]

theorem find?_append_some {α : Type} {p : α → Bool} {l₁ l₂ : List α} {a : α}
    (h : l₁.find? p = some a) : (l₁ ++ l₂).find? p = some a := by
  rw [List.find?_append, h]
  rfl

theorem occursBefore_append_pair {α : Type} [DecidableEq α]
    (x y : α) (suf : List α) (hy : y ∈ suf) :
    ∀ (l mid : List α), occursBefore x y (l ++ (x :: mid) ++ suf) = true := by
  intro l
  induction l with
  | nil =>
    intro mid
    show occursBefore x y (x :: (mid ++ suf)) = true
    unfold occursBefore
    rw [if_pos (by simp)]
    simp [List.mem_append_right _ hy]
  | cons a t ih =>
    intro mid
    show occursBefore x y (a :: (t ++ (x :: mid) ++ suf)) = true
    unfold occursBefore
    by_cases ha : (a == x) = true
    · rw [if_pos ha]
      simp [List.mem_append_right _ hy]
    · rw [if_neg (by simp_all)]
      exact ih mid

/-! ## Helpers about the retry combinator -/

theorem runWithRetry_succ {α : Type} (op : Nat → Except String α) (i n : Nat) :
    runWithRetry op i (n + 1) =
      match op i with
      | .ok a => .ok a
      | .error e => if n = 0 then .error e else runWithRetry op (i + 1) n := rfl

/-! ## C2: smallest unused positive priority -/

/-- C2: `_get_next_available_priority` returns the smallest unused positive
integer: 1 when no numeric priorities exist on the listener, and otherwise
the first integer from 1 upward that is not among the numeric priorities
(the `default` rule being excluded by `numericPriorities`); in particular
priorities `{1, 2, 4}` yield `3`. -/
theorem next_priority_smallest_unused (rules : List RulePriority) :
    (numericPriorities rules = [] → get_next_available_priority rules = 1) ∧
    1 ≤ get_next_available_priority rules ∧
    get_next_available_priority rules ∉ numericPriorities rules ∧
    (∀ j, 1 ≤ j → j ∉ numericPriorities rules → get_next_available_priority rules ≤ j) ∧
    get_next_available_priority [.num 1, .num 2, .num 4] = 3 := by
  have main : 1 ≤ get_next_available_priority rules ∧
      get_next_available_priority rules ∉ numericPriorities rules ∧
      (∀ j, 1 ≤ j → j ∉ numericPriorities rules →
        get_next_available_priority rules ≤ j) := by
    by_cases hl : (numericPriorities rules).isEmpty
    · have h0 : get_next_available_priority rules = 1 := by
        simp [get_next_available_priority, hl]
      have hnil : numericPriorities rules = [] := List.isEmpty_iff.mp hl
      rw [h0, hnil]
      exact ⟨le_refl 1, by simp, fun j hj _ => hj⟩
    · cases hf : (List.range' 1 ((numericPriorities rules).foldr max 0 + 1)).find?
          (fun i => !((numericPriorities rules).contains i)) with
      | some i =>
        have heq : get_next_available_priority rules = i := by
          simp only [get_next_available_priority]
          rw [if_neg hl, hf]
        have hi_mem := List.mem_of_find?_eq_some hf
        have hi_range := List.mem_range'_1.mp hi_mem
        have hi_not : i ∉ numericPriorities rules := by
          have h2 := List.find?_some hf
          simpa using h2
        refine ⟨by rw [heq]; exact hi_range.1, by rw [heq]; exact hi_not, ?_⟩
        intro j hj hjl
        rw [heq]
        rcases le_or_lt j ((numericPriorities rules).foldr max 0 + 1) with hle | hgt
        · refine find?_range'_min hf j hj (by omega) ?_
          simpa using hjl
        · have := hi_range.2
          omega
      | none =>
        have heq : get_next_available_priority rules =
            (numericPriorities rules).foldr max 0 + 1 := by
          simp only [get_next_available_priority]
          rw [if_neg hl, hf]
        have hnone := List.find?_eq_none.mp hf
        have hmaxnot : (numericPriorities rules).foldr max 0 + 1 ∉
            numericPriorities rules := by
          intro hmem
          exact absurd (mem_le_foldr_max hmem) (by omega)
        refine ⟨by rw [heq]; omega, by rw [heq]; exact hmaxnot, ?_⟩
        intro j hj hjl
        rw [heq]
        by_contra hcon
        push_neg at hcon
        have hjr : j ∈ List.range' 1 ((numericPriorities rules).foldr max 0 + 1) :=
          List.mem_range'_1.mpr ⟨hj, by omega⟩
        have h3 := hnone j hjr
        exact hjl (by simpa using h3)
  exact ⟨fun h => by simp [get_next_available_priority, h],
    main.1, main.2.1, main.2.2, by decide⟩

/-- Witness for C2: instantiating the minimality clause at `j = 5` for the
priorities `{1, 2, 4}`. -/
theorem next_priority_smallest_unused_witness :
    get_next_available_priority [RulePriority.num 1, .num 2, .num 4] ≤ 5 :=
  (next_priority_smallest_unused [.num 1, .num 2, .num 4]).2.2.2.1 5
    (by decide) (by decide)

/-! ## C3: reload failure does not keep the previous desired state -/

/-- Counterexample to C3: with one loaded service `a`, a failed reload
(`yaml.YAMLError`) does not keep the previous in-memory desired state — it
resets it to the empty configuration, so the pass sees no services. -/
theorem reload_failure_counterexample :
    load_compose_data ⟨[("a", ⟨[]⟩)]⟩ .yamlError ≠ ⟨[("a", ⟨[]⟩)]⟩ ∧
    load_compose_data ⟨[("a", ⟨[]⟩)]⟩ .yamlError = emptyComposeData :=
  ⟨by decide, rfl⟩

/-- C3 (amended): when reloading the compose file fails during a running
pass — the file is missing, unparsable, unreadable, or lacks a `services`
section — the previous in-memory desired state is NOT kept: it is replaced
by the empty configuration `{"version": "3", "services": {}}`, so the pass
sees an empty service set.  The failure is handled inside the loader
(`load_compose_data` is total), so the loop does not crash. -/
theorem reload_failure_resets (prev : ComposeData) :
    load_compose_data prev .yamlError = emptyComposeData ∧
    load_compose_data prev .readError = emptyComposeData ∧
    load_compose_data prev .fileMissing = emptyComposeData ∧
    load_compose_data prev .docWithoutServices = emptyComposeData :=
  ⟨rfl, rfl, rfl, rfl⟩

/-! ## C6: target group name derivation -/

/-- C6: `_get_target_group_name` is a pure function of `server_id` (being a
Lean function, it returns the same string on every call); the string is
`tg-mcp-` followed by `server_id` with every non-alphanumeric character
replaced by a dash, truncated to 32 code points; its length never exceeds
the provider limit of 32; every character of the result is alphanumeric or
a dash; and the spec's long-id scenario truncates as stated.  Consequently
`_target_group_exists`, which looks up by this name, queries the same name
on every call for a given id. -/
theorem tg_name_deterministic_and_capped (server_id : String) :
    (get_target_group_name server_id).length ≤ 32 ∧
    (get_target_group_name server_id).data =
      (("tg-mcp-").data ++
        server_id.data.map (fun c => if pyIsAlnum c then c else '-')).take 32 ∧
    (∀ ch ∈ (get_target_group_name server_id).data, pyIsAlnum ch = true ∨ ch = '-') ∧
    get_target_group_name "very-long-service-name-that-exceeds-limit" =
      "tg-mcp-very-long-service-name-th" := by
  refine ⟨List.length_take_le _ _, rfl, ?_, by decide⟩
  intro ch hch
  have hch2 : ch ∈ ("tg-mcp-").data ++
      server_id.data.map (fun c => if pyIsAlnum c then c else '-') :=
    List.take_subset _ _ hch
  rcases List.mem_append.mp hch2 with hpre | hmap
  · have hall : ∀ c ∈ ("tg-mcp-").data, pyIsAlnum c = true ∨ c = '-' := by decide
    exact hall ch hpre
  · rcases List.mem_map.mp hmap with ⟨c, _, hc⟩
    by_cases ha : pyIsAlnum c = true
    · left
      rw [← hc]
      simpa [ha] using ha
    · right
      rw [← hc]
      simp [ha]

/-- Witness for C6: the character clause applied to the first character of
the derived name for the id `"svc one"`. -/
theorem tg_name_deterministic_and_capped_witness :
    pyIsAlnum 't' = true ∨ 't' = '-' :=
  (tg_name_deterministic_and_capped "svc one").2.2.1 't' (by decide)

/-! ## C7: which runtime writes are retried -/

/-- Counterexample to C7: `stop_container` and `restart_container` carry no
retry policy — a transient failure that would succeed on the second attempt
(as under the claimed 3-attempt retry, shown alongside) still yields
`False`. -/
theorem stop_restart_not_retried :
    stop_container true (fun i => if i = 0 then .error "transient" else .ok ()) = false ∧
    restart_container true (fun i => if i = 0 then .error "transient" else .ok ()) = false ∧
    runWithRetry (fun i => if i = 0 then Except.error "transient" else Except.ok ()) 0 3 =
      .ok () :=
  ⟨rfl, rfl, rfl⟩

/-- C7 (amended): of the remote-runtime write operations, only
`create_container` is declared with the retry policy (3 attempts,
exponential backoff 2s→10s); `stop_container` and `restart_container` are
single-attempt — their result depends only on the first attempt.
Moreover, `create_container`'s internal `except Exception` handler returns
`None` instead of re-raising, so even its retry wrapper observes no failure
and performs exactly one attempt.  In all three operations a failure is
demoted to a per-service return value (`None`/`False`) rather than an
exception, so it cannot abort the pass for other services. -/
theorem retry_only_on_create (op : Nat → Except String String)
    (op2 op2' : Nat → Except String Unit) (h : op2 0 = op2' 0) :
    create_container op = create_container_body op 0 ∧
    (∀ b, stop_container b op2 = stop_container b op2' ∧
          restart_container b op2 = restart_container b op2') := by
  constructor
  · cases h0 : op 0 with
    | ok cid =>
      have hb : create_container_body op 0 = .ok (some cid) := by
        simp [create_container_body, h0]
      rw [create_container, runWithRetry_succ, hb]
    | error e =>
      have hb : create_container_body op 0 = .ok none := by
        simp [create_container_body, h0]
      rw [create_container, runWithRetry_succ, hb]
  · intro b
    cases b <;> simp [stop_container, restart_container, h]

/-- Witness for C7 (amended), at a concretely failing first attempt. -/
theorem retry_only_on_create_witness :
    create_container (fun _ => .error "boom") = .ok none ∧
    stop_container true (fun _ => .error "boom") = false :=
  ⟨(retry_only_on_create (fun _ => .error "boom")
      (fun _ => .error "boom") (fun _ => .error "boom") rfl).1,
   ((retry_only_on_create (fun _ => .error "boom")
      (fun _ => .error "boom") (fun _ => .error "boom") rfl).2 true).1.trans rfl⟩

/-! ## C8: port allocation -/

theorem findPortGo_only_error (allocated : List Nat) (probe : Nat → Bool) :
    ∀ (n p : Nat) (e : String),
      findPortGo allocated probe p n = .error e →
        e = "No available ports in range" := by
  intro n
  induction n with
  | zero =>
    intro p e h
    have h2 : (Except.error "No available ports in range" : Except String Nat) =
        .error e := h
    injection h2 with h2
    exact h2.symm
  | succ m ih =>
    intro p e h
    simp only [findPortGo] at h
    by_cases hc : allocated.contains p
    · rw [if_pos hc] at h
      exact ih _ _ h
    · rw [if_neg hc] at h
      by_cases hp : probe p
      · rw [if_pos hp] at h
        cases h
      · rw [if_neg hp] at h
        exact ih _ _ h

theorem findPortGo_ok_spec (allocated : List Nat) (probe : Nat → Bool) :
    ∀ (n p r : Nat), findPortGo allocated probe p n = .ok r →
      p ≤ r ∧ r < p + n ∧ r ∉ allocated ∧ probe r = true ∧
      ∀ q, p ≤ q → q < r → q ∈ allocated ∨ probe q = false := by
  intro n
  induction n with
  | zero =>
    intro p r h
    simp [findPortGo] at h
  | succ m ih =>
    intro p r h
    simp only [findPortGo] at h
    by_cases hc : allocated.contains p
    · rw [if_pos hc] at h
      obtain ⟨h1, h2, h3, h4, h5⟩ := ih (p + 1) r h
      refine ⟨by omega, by omega, h3, h4, ?_⟩
      intro q hq hqr
      rcases Nat.eq_or_lt_of_le hq with rfl | hlt
      · exact Or.inl (by simpa using hc)
      · exact h5 q hlt hqr
    · rw [if_neg hc] at h
      by_cases hp : probe p
      · rw [if_pos hp] at h
        injection h with h
        subst h
        exact ⟨le_refl _, by omega, by simpa using hc, hp, fun q hq hqr => by omega⟩
      · rw [if_neg hp] at h
        obtain ⟨h1, h2, h3, h4, h5⟩ := ih (p + 1) r h
        refine ⟨by omega, by omega, h3, h4, ?_⟩
        intro q hq hqr
        rcases Nat.eq_or_lt_of_le hq with rfl | hlt
        · exact Or.inr (by simpa using hp)
        · exact h5 q hlt hqr

theorem findPortGo_error_spec (allocated : List Nat) (probe : Nat → Bool) :
    ∀ (n p : Nat),
      (∀ q, p ≤ q → q < p + n → q ∈ allocated ∨ probe q = false) ↔
      findPortGo allocated probe p n = .error "No available ports in range" := by
  intro n
  induction n with
  | zero =>
    intro p
    constructor
    · intro _
      rfl
    · intro _ q hq hqn
      exact absurd hqn (by omega)
  | succ m ih =>
    intro p
    simp only [findPortGo]
    by_cases hc : allocated.contains p
    · rw [if_pos hc]
      constructor
      · intro hall
        exact (ih (p + 1)).mp (fun q hq hqn => hall q (by omega) (by omega))
      · intro herr q hq hqn
        rcases Nat.eq_or_lt_of_le hq with rfl | hlt
        · exact Or.inl (by simpa using hc)
        · exact (ih (p + 1)).mpr herr q hlt (by omega)
    · rw [if_neg hc]
      by_cases hp : probe p
      · rw [if_pos hp]
        constructor
        · intro hall
          rcases hall p (le_refl p) (by omega) with hmem | hfalse
          · exact absurd hmem (by simpa using hc)
          · exact absurd hp (by simp [hfalse])
        · intro herr
          cases herr
      · rw [if_neg hp]
        constructor
        · intro hall
          exact (ih (p + 1)).mp (fun q hq hqn => hall q (by omega) (by omega))
        · intro herr q hq hqn
          rcases Nat.eq_or_lt_of_le hq with rfl | hlt
          · exact Or.inr (by simpa using hp)
          · exact (ih (p + 1)).mpr herr q hlt (by omega)

/-- C8: port allocation scans `[port_range_start, port_range_end]` in
ascending order, skips ports recorded in the local cache (the values of
`port_allocations`), returns the first remaining port whose TCP probe
reports availability, records the returned port in the cache under the
server id (at the `create_container` call site), and errors exactly when no
port in the range qualifies. -/
theorem port_allocation_correct (port_range_start port_range_end : Nat)
    (allocs : List (String × Nat)) (probe : Nat → Bool) (server_id : String) :
    (∀ p allocs2,
      allocate_port port_range_start port_range_end allocs probe server_id =
          .ok (p, allocs2) →
        port_range_start ≤ p ∧ p ≤ port_range_end ∧
        p ∉ allocs.map (·.2) ∧ probe p = true ∧
        (∀ q, port_range_start ≤ q → q < p →
          q ∈ allocs.map (·.2) ∨ probe q = false) ∧
        dictLookup server_id allocs2 = some p) ∧
    ((∀ q, port_range_start ≤ q → q ≤ port_range_end →
        q ∈ allocs.map (·.2) ∨ probe q = false) ↔
      allocate_port port_range_start port_range_end allocs probe server_id =
        .error "No available ports in range") := by
  constructor
  · intro p allocs2 h
    unfold allocate_port at h
    cases hf : find_available_port port_range_start port_range_end
        (allocs.map (·.2)) probe with
    | ok r =>
      rw [hf] at h
      injection h with h
      obtain ⟨rfl, rfl⟩ : r = p ∧ dictInsert server_id r allocs = allocs2 := by
        constructor <;> [exact congrArg Prod.fst h; exact congrArg Prod.snd h]
      obtain ⟨h1, h2, h3, h4, h5⟩ := findPortGo_ok_spec _ _ _ _ _ hf
      exact ⟨h1, by omega, h3, h4, h5, dictLookup_dictInsert_self _ _ _⟩
    | error e =>
      rw [hf] at h
      cases h
  · unfold allocate_port
    cases hf : find_available_port port_range_start port_range_end
        (allocs.map (·.2)) probe with
    | ok r =>
      obtain ⟨h1, h2, h3, h4, h5⟩ := findPortGo_ok_spec _ _ _ _ _ hf
      constructor
      · intro hall
        rcases hall r h1 (by omega) with hmem | hfalse
        · exact absurd hmem h3
        · exact absurd h4 (by simp [hfalse])
      · intro hcon
        cases hcon
    | error e =>
      constructor
      · intro hall
        have hmsg : find_available_port port_range_start port_range_end
            (allocs.map (·.2)) probe = .error "No available ports in range" :=
          (findPortGo_error_spec (allocs.map (·.2)) probe
              (port_range_end + 1 - port_range_start) port_range_start).mp
            (fun q hq hqn => hall q hq (by omega))
        rw [hf] at hmsg
        injection hmsg with hmsg
        rw [hmsg]
      · intro _ q hq hqe
        have hrange := (findPortGo_error_spec (allocs.map (·.2)) probe
            (port_range_end + 1 - port_range_start) port_range_start).mpr
          (by
            have : e = "No available ports in range" := by
              have h2 := findPortGo_only_error (allocs.map (·.2)) probe
                (port_range_end + 1 - port_range_start) port_range_start e hf
              exact h2
            rw [← this]
            exact hf)
        exact hrange q hq (by omega)

/-- Witness for C8: with range `[8000, 8002]`, port 8000 cached and only
8002 probing free, allocation returns 8002 and the cache maps the server to
it. -/
theorem port_allocation_correct_witness :
    dictLookup "y" [("x", 8000), ("y", 8002)] = some 8002 :=
  ((port_allocation_correct 8000 8002 [("x", 8000)]
      (fun p => p == 8002) "y").1 8002 [("x", 8000), ("y", 8002)] rfl).2.2.2.2.2

/-! ## C9: the orphaned-service cleanup branch of `sync_services` -/

theorem get_mcp_servers_keys (c : ComposeData) :
    (get_mcp_servers c).map (·.1) = c.services.map (·.1) := by
  unfold get_mcp_servers
  rw [List.map_map]
  rfl

theorem sync_services_orphan_fold_noop (c : ComposeData) :
    ∀ (l : List String) (acc : ComposeState × SyncServicesResult),
      l.foldl (sync_services_orphan_step c) acc = acc := by
  intro l
  induction l with
  | nil => intro acc; rfl
  | cons sid t ih =>
    intro acc
    rw [List.foldl_cons]
    have hstep : sync_services_orphan_step c acc sid = acc := by
      simp only [sync_services_orphan_step, get_mcp_servers_keys]
      cases hc : (c.services.map (·.1)).contains sid <;> simp [hc]
    rw [hstep, ih]

/-- C9: provided the compose file does not change during the pass (both
reads of it are the same `c`), the guard of `sync_services`' orphaned-
service cleanup branch is unsatisfiable — `get_mcp_servers` returns exactly
the ids of the compose file's `services` section, so no id can be in the
section but outside the desired set.  Hence the cleanup loop is the
identity on any accumulator and any list of running services: it never
stops a service, and `sync_services` reduces to its per-service loop
alone. -/
theorem orphan_cleanup_branch_unreachable (c : ComposeData)
    (acc : ComposeState × SyncServicesResult) (l : List String)
    (st : ComposeState) :
    (get_mcp_servers c).map (·.1) = c.services.map (·.1) ∧
    l.foldl (sync_services_orphan_step c) acc = acc ∧
    sync_services c st =
      (get_mcp_servers c).foldl (sync_services_step c) (st, ⟨[], [], [], []⟩) := by
  refine ⟨get_mcp_servers_keys c, sync_services_orphan_fold_noop c l acc, ?_⟩
  simp only [sync_services]
  exact sync_services_orphan_fold_noop c _ _

/-! ## C10: the disabled path of `sync_alb` -/

theorem service_step_deleted (env : AlbEnv) (ports : String → Option Nat)
    (cinfo : String → ContainerInfo) (acc : AlbW × SyncAlbResult)
    (e : String × McpServerMeta) :
    (sync_alb_service_step env ports cinfo acc e).2.deleted =
      acc.2.deleted ++ (if e.2.disabled then [e.1] else []) := by
  simp only [sync_alb_service_step]
  by_cases hd : e.2.disabled = true
  · simp [hd]
  · rw [if_neg hd]
    split
    next => simp [hd]
    next =>
      split
      next =>
        split
        next => simp [hd]
        next => simp [hd]
      next => simp [hd]

theorem service_step_errors_of_disabled (env : AlbEnv) (ports : String → Option Nat)
    (cinfo : String → ContainerInfo) (acc : AlbW × SyncAlbResult)
    (e : String × McpServerMeta) (hd : e.2.disabled = true) :
    (sync_alb_service_step env ports cinfo acc e).2.errors = acc.2.errors := by
  simp [sync_alb_service_step, hd]

theorem sweep_step_errors (env : AlbEnv) (desired : List String)
    (acc : AlbW × SyncAlbResult) (tg : TargetGroup) :
    (sweep_step env desired acc tg).2.errors = acc.2.errors := by
  simp only [sweep_step]
  split
  · split <;> rfl
  · rfl

theorem sweep_step_deleted_mono (env : AlbEnv) (desired : List String)
    (acc : AlbW × SyncAlbResult) (tg : TargetGroup) :
    ∃ d, (sweep_step env desired acc tg).2.deleted = acc.2.deleted ++ d := by
  simp only [sweep_step]
  split
  · split
    · exact ⟨_, rfl⟩
    · exact ⟨[], by simp⟩
  · exact ⟨[], by simp⟩

theorem sweep_fold_deleted_mono (env : AlbEnv) (desired : List String) :
    ∀ (tgs : List TargetGroup) (acc : AlbW × SyncAlbResult),
      ∃ d, (tgs.foldl (sweep_step env desired) acc).2.deleted =
        acc.2.deleted ++ d := by
  intro tgs
  induction tgs with
  | nil => intro acc; exact ⟨[], by simp⟩
  | cons tg t ih =>
    intro acc
    rw [List.foldl_cons]
    obtain ⟨d1, hd1⟩ := sweep_step_deleted_mono env desired acc tg
    obtain ⟨d2, hd2⟩ := ih (sweep_step env desired acc tg)
    exact ⟨d1 ++ d2, by rw [hd2, hd1, List.append_assoc]⟩

theorem sweep_fold_errors (env : AlbEnv) (desired : List String) :
    ∀ (tgs : List TargetGroup) (acc : AlbW × SyncAlbResult),
      (tgs.foldl (sweep_step env desired) acc).2.errors = acc.2.errors := by
  intro tgs
  induction tgs with
  | nil => intro acc; rfl
  | cons tg t ih =>
    intro acc
    rw [List.foldl_cons, ih, sweep_step_errors]

theorem fold_service_deleted (env : AlbEnv) (ports : String → Option Nat)
    (cinfo : String → ContainerInfo) :
    ∀ (l : List (String × McpServerMeta)) (acc : AlbW × SyncAlbResult),
      (l.foldl (sync_alb_service_step env ports cinfo) acc).2.deleted =
        acc.2.deleted ++ (l.filter (fun e => e.2.disabled)).map (·.1) := by
  intro l
  induction l with
  | nil => intro acc; simp
  | cons e t ih =>
    intro acc
    rw [List.foldl_cons, ih, service_step_deleted]
    by_cases hd : e.2.disabled = true <;>
      simp [hd, List.filter_cons, List.append_assoc]

theorem fold_service_errors_all_disabled (env : AlbEnv) (ports : String → Option Nat)
    (cinfo : String → ContainerInfo) :
    ∀ (l : List (String × McpServerMeta)) (acc : AlbW × SyncAlbResult),
      (∀ e ∈ l, e.2.disabled = true) →
      (l.foldl (sync_alb_service_step env ports cinfo) acc).2.errors =
        acc.2.errors := by
  intro l
  induction l with
  | nil => intro acc _; rfl
  | cons e t ih =>
    intro acc hall
    rw [List.foldl_cons, ih _ (fun x hx => hall x (List.mem_cons_of_mem e hx)),
      service_step_errors_of_disabled env ports cinfo acc e
        (hall e (List.mem_cons_self e t))]

/-- C10: in `sync_alb`, every service whose configuration has the disabled
flag set is appended to the result's `deleted` list on every pass,
unconditionally — for every environment, even when the cleanup calls fail
(`env` arbitrary) and even when no rule or target group existed for it (`w`
arbitrary) — and cleanup failures on the disabled path are never recorded
in the result's `errors` (when all services are disabled, the errors list
is empty no matter how the delete calls behave). -/
theorem disabled_always_deleted_errors_dropped (env : AlbEnv)
    (ports : String → Option Nat) (cinfo : String → ContainerInfo)
    (c : ComposeData) (w : AlbW) :
    (∀ e ∈ get_mcp_servers c, e.2.disabled = true →
      e.1 ∈ (sync_alb env ports cinfo c w).2.deleted) ∧
    ((∀ e ∈ get_mcp_servers c, e.2.disabled = true) →
      (sync_alb env ports cinfo c w).2.errors = []) := by
  constructor
  · intro e he hd
    simp only [sync_alb]
    obtain ⟨d, hsw⟩ := sweep_fold_deleted_mono env ((get_mcp_servers c).map (·.1))
      ((get_mcp_servers c).foldl (sync_alb_service_step env ports cinfo)
        (w, ⟨[], [], [], []⟩)).1.aws.targetGroups
      ((get_mcp_servers c).foldl (sync_alb_service_step env ports cinfo)
        (w, ⟨[], [], [], []⟩))
    rw [hsw, fold_service_deleted]
    refine List.mem_append_left _ (List.mem_append_right _ ?_)
    exact List.mem_map.mpr ⟨e, List.mem_filter.mpr ⟨he, by simp [hd]⟩, rfl⟩
  · intro hall
    simp only [sync_alb]
    rw [sweep_fold_errors, fold_service_errors_all_disabled env ports cinfo _ _ hall]

/-- Witness for C10: one disabled service `b` with no resources, all delete
calls failing — `b` still lands in `deleted` and no error is recorded. -/
theorem disabled_always_deleted_errors_dropped_witness :
    "b" ∈ (sync_alb envFail constPorts allRunning composeB (initAlbW [])).2.deleted ∧
    (sync_alb envFail constPorts allRunning composeB (initAlbW [])).2.errors = [] :=
  ⟨(disabled_always_deleted_errors_dropped envFail constPorts allRunning
      composeB (initAlbW [])).1 ("b", ⟨true, "/mcp/b"⟩)
      (by
        rw [show get_mcp_servers composeB = [("b", ⟨true, "/mcp/b"⟩)] from rfl]
        exact List.mem_singleton.mpr rfl) rfl,
   (disabled_always_deleted_errors_dropped envFail constPorts allRunning
      composeB (initAlbW [])).2
      (by
        intro e he
        rw [show get_mcp_servers composeB = [("b", ⟨true, "/mcp/b"⟩)] from rfl] at he
        rcases List.mem_singleton.mp he with rfl
        rfl)⟩

/-! ## C5: routing-rule convergence -/

/-- C5: with the service's current target-group identifier `tgArn` (the
manager's cache entry for the id, as resolved by `create_listener_rule`),
(a) when a listener rule for the service's path pattern exists and one of
its forward actions references `tgArn`, the rule is returned as-is and
nothing changes; (b) when such a rule exists but none of its forward
actions references `tgArn`, exactly that rule's actions are replaced in
place by a single forward to `tgArn` (no rule added or removed, target
groups and cache untouched); (c) when no such rule exists, a new rule is
appended carrying the next free priority, the path-pattern condition, and a
forward action to `tgArn`. -/
theorem routing_rule_convergence (ports : String → Option Nat)
    (sid tgArn : String) (w : AlbW)
    (hcache : dictLookup sid w.tgCache = some tgArn) :
    (∀ r, rule_exists_for_path w.aws (get_path_pattern sid) = some r →
      r.actions.any (forwardsTo tgArn) = true →
      create_listener_rule ports sid w = (w, some r.arn)) ∧
    (∀ r, rule_exists_for_path w.aws (get_path_pattern sid) = some r →
      r.actions.any (forwardsTo tgArn) = false →
      (create_listener_rule ports sid w).2 = some r.arn ∧
      (create_listener_rule ports sid w).1.aws.rules =
        w.aws.rules.map (fun r' =>
          if r'.arn == r.arn then { r' with actions := [⟨"forward", tgArn⟩] } else r') ∧
      (create_listener_rule ports sid w).1.aws.targetGroups = w.aws.targetGroups ∧
      (create_listener_rule ports sid w).1.tgCache = w.tgCache) ∧
    (rule_exists_for_path w.aws (get_path_pattern sid) = none →
      (create_listener_rule ports sid w).2 = some (mkRuleArn (get_path_pattern sid)) ∧
      (create_listener_rule ports sid w).1.aws.rules =
        w.aws.rules ++ [⟨mkRuleArn (get_path_pattern sid),
          .num (get_next_available_priority (w.aws.rules.map (·.priority))),
          [⟨"path-pattern", [get_path_pattern sid]⟩], [⟨"forward", tgArn⟩]⟩] ∧
      (create_listener_rule ports sid w).1.aws.targetGroups = w.aws.targetGroups) := by
  have hmain : create_listener_rule ports sid w = create_listener_rule_with sid tgArn w := by
    simp only [create_listener_rule, hcache]
  refine ⟨?_, ?_, ?_⟩
  · intro r hr hfwd
    rw [hmain]
    simp [create_listener_rule_with, hr, hfwd]
  · intro r hr hfwd
    have heval : create_listener_rule ports sid w =
        ({ w with
           aws := modify_rule_actions w.aws r.arn [⟨"forward", tgArn⟩],
           trace := w.trace ++ [.modifyRule r.arn] }, some r.arn) := by
      rw [hmain]
      simp [create_listener_rule_with, hr, hfwd]
    rw [heval]
    refine ⟨rfl, ?_, rfl, rfl⟩
    simp [modify_rule_actions]
  · intro hr
    have heval : create_listener_rule ports sid w =
        ({ w with
           aws := { w.aws with rules := w.aws.rules ++
             [⟨mkRuleArn (get_path_pattern sid),
               .num (get_next_available_priority (w.aws.rules.map (·.priority))),
               [⟨"path-pattern", [get_path_pattern sid]⟩], [⟨"forward", tgArn⟩]⟩] },
           trace := w.trace ++ [.createRule (mkRuleArn (get_path_pattern sid))] },
         some (mkRuleArn (get_path_pattern sid))) := by
      rw [hmain]
      simp [create_listener_rule_with, hr]
    rw [heval]
    exact ⟨rfl, rfl, rfl⟩

/-- Witness for C5: the three branches at concrete worlds — an
already-correct rule is returned with no state change, a mismatched rule
has its action rewritten in place, and a missing rule is created with
priority 1. -/
theorem routing_rule_convergence_witness :
    create_listener_rule constPorts "a" wRuleGood = (wRuleGood, some "ruleA-arn") ∧
    (create_listener_rule constPorts "a" wRuleBad).1.aws.rules =
      [⟨"ruleA-arn", .num 1, [⟨"path-pattern", ["/mcp/a/*"]⟩],
        [⟨"forward", "arn:tg/tg-mcp-a"⟩]⟩] ∧
    (create_listener_rule constPorts "a" wNoRule).1.aws.rules =
      [⟨"arn:rule//mcp/a/*", .num 1, [⟨"path-pattern", ["/mcp/a/*"]⟩],
        [⟨"forward", "arn:tg/tg-mcp-a"⟩]⟩] := by
  refine ⟨(routing_rule_convergence constPorts "a" "arn:tg/tg-mcp-a"
      wRuleGood rfl).1 ruleAGood rfl rfl, ?_, ?_⟩
  · have h := ((routing_rule_convergence constPorts "a" "arn:tg/tg-mcp-a"
        wRuleBad rfl).2.1 ruleABad rfl rfl).2.1
    rw [h]
    rfl
  · have h := ((routing_rule_convergence constPorts "a" "arn:tg/tg-mcp-a"
        wNoRule rfl).2.2 rfl).2.1
    rw [h]
    rfl

/-! ## C4: orphan cleanup with ordered teardown -/

theorem find?_eq_some_of_unique {α : Type} {p : α → Bool} {l : List α} {a : α}
    (ha : a ∈ l) (hpa : p a = true)
    (huniq : ∀ b ∈ l, p b = true → b = a) : l.find? p = some a := by
  induction l with
  | nil => cases ha
  | cons x t ih =>
    by_cases hx : p x = true
    · have hxa : x = a := huniq x (List.mem_cons_self x t) hx
      rw [List.find?_cons_of_pos _ hx, hxa]
    · rw [List.find?_cons_of_neg _ (by simp [hx])]
      rcases List.mem_cons.mp ha with rfl | hat
      · exact absurd hpa hx
      · exact ih hat (fun b hb hpb => huniq b (List.mem_cons_of_mem _ hb) hpb)

theorem service_step_skip (env : AlbEnv) (ports : String → Option Nat)
    (cinfo : String → ContainerInfo) (acc : AlbW × SyncAlbResult)
    (e : String × McpServerMeta) (hd : e.2.disabled = false)
    (hrun : (cinfo e.1).running = false) :
    sync_alb_service_step env ports cinfo acc e = acc := by
  simp only [sync_alb_service_step]
  rw [if_neg (by simp [hd]), if_pos (by simp [hrun])]

theorem service_fold_skip (env : AlbEnv) (ports : String → Option Nat)
    (cinfo : String → ContainerInfo) :
    ∀ (l : List (String × McpServerMeta)) (acc : AlbW × SyncAlbResult),
      (∀ e ∈ l, e.2.disabled = false ∧ (cinfo e.1).running = false) →
      l.foldl (sync_alb_service_step env ports cinfo) acc = acc := by
  intro l
  induction l with
  | nil => intro acc _; rfl
  | cons e t ih =>
    intro acc hall
    rw [List.foldl_cons,
      service_step_skip env ports cinfo acc e
        (hall e (List.mem_cons_self e t)).1 (hall e (List.mem_cons_self e t)).2]
    exact ih acc (fun x hx => hall x (List.mem_cons_of_mem e hx))

theorem sweep_step_skip (env : AlbEnv) (desired : List String)
    (tg' : TargetGroup)
    (h : ¬(tgIsManaged tg' = true ∧ ∃ sid', tgServiceTag tg' = some sid' ∧
      sid' ≠ "" ∧ sid' ∉ desired)) :
    ∀ (acc : AlbW × SyncAlbResult), sweep_step env desired acc tg' = acc := by
  intro acc
  simp only [sweep_step]
  split
  next sid' hsvc =>
    have hng : ¬((tgIsManaged tg' && sid' != "" && !(desired.contains sid')) = true) := by
      intro hg
      rw [Bool.and_eq_true, Bool.and_eq_true] at hg
      refine h ⟨hg.1.1, sid', hsvc, ?_, ?_⟩
      · intro hempty
        rw [hempty] at hg
        simp at hg
      · intro hmem
        have h2 := hg.2
        simp [hmem] at h2
    rw [if_neg hng]
  next => rfl

theorem sweep_fold_skip (env : AlbEnv) (desired : List String) :
    ∀ (l : List TargetGroup) (acc : AlbW × SyncAlbResult),
      (∀ e ∈ l, ∀ acc', sweep_step env desired acc' e = acc') →
      l.foldl (sweep_step env desired) acc = acc := by
  intro l
  induction l with
  | nil => intro acc _; rfl
  | cons e t ih =>
    intro acc hall
    rw [List.foldl_cons, hall e (List.mem_cons_self e t) acc]
    exact ih acc (fun x hx => hall x (List.mem_cons_of_mem e hx))

/-- Counterexample to C4 as universally stated: a target group carrying the
management tag for an absent service is NOT deleted by the sweep when its
name differs from the derived name — the sweep detects it as an orphan (it
even lands in `deleted`), but `cleanup_alb_for_server` deletes by the
derived name `tg-mcp-x`, finds nothing, and the group survives the pass. -/
theorem orphan_cleanup_name_counterexample :
    tgIsManaged tgWeird = true ∧
    tgServiceTag tgWeird = some "x" ∧
    tgWeird ∈ (sync_alb envOk constPorts allRunning emptyComposeData
      wWeird).1.aws.targetGroups :=
  ⟨rfl, rfl, by rw [show (sync_alb envOk constPorts allRunning emptyComposeData
      wWeird).1.aws.targetGroups = [tgWeird] from rfl]; exact List.mem_singleton_self _⟩

/-- C4 (amended): a target group carrying the management tag whose (non-empty)
service tag names an id absent from the desired set is deleted by one
`sync_alb` pass, and when a rule for that id's path pattern exists, the
rule deletion precedes the target-group deletion in the emitted call
trace.  Side conditions make the scenario well-formed: the group bears the
name the engine derives for its tagged id (as every group created by this
system does — cleanup looks the group up by derived name), names identify
groups uniquely, it is the only orphan in the state, and the desired
services themselves are quiet this pass (enabled, containers not running). -/
theorem orphan_cleanup_ordered (ports : String → Option Nat)
    (cinfo : String → ContainerInfo) (c : ComposeData) (w : AlbW)
    (tg : TargetGroup) (sid : String)
    (htg : tg ∈ w.aws.targetGroups)
    (hmanaged : tgIsManaged tg = true)
    (hsvc : tgServiceTag tg = some sid)
    (hsid : sid ≠ "")
    (habsent : sid ∉ (get_mcp_servers c).map (·.1))
    (hname : tg.name = get_target_group_name sid)
    (hnodup : w.aws.targetGroups.Nodup)
    (huniqname : ∀ tg' ∈ w.aws.targetGroups, tg'.name = tg.name → tg' = tg)
    (honly : ∀ tg' ∈ w.aws.targetGroups, tg' ≠ tg →
      ¬(tgIsManaged tg' = true ∧ ∃ sid', tgServiceTag tg' = some sid' ∧
        sid' ≠ "" ∧ sid' ∉ (get_mcp_servers c).map (·.1)))
    (hquiet : ∀ e ∈ get_mcp_servers c,
      e.2.disabled = false ∧ (cinfo e.1).running = false) :
    (∀ tg' ∈ (sync_alb envOk ports cinfo c w).1.aws.targetGroups,
      tg'.name ≠ tg.name) ∧
    sid ∈ (sync_alb envOk ports cinfo c w).2.deleted ∧
    (∀ r, rule_exists_for_path w.aws (get_path_pattern sid) = some r →
      occursBefore (AlbOp.deleteRule r.arn) (AlbOp.deleteTG tg.arn)
        (sync_alb envOk ports cinfo c w).1.trace = true) := by
  -- the target group is found by its derived name, and it is the first
  -- (indeed only) group with that name
  have hfind : w.aws.targetGroups.find? (fun t => t.name == get_target_group_name sid) =
      some tg := by
    refine find?_eq_some_of_unique htg (by simp [hname]) ?_
    intro b hb hpb
    refine huniqname b hb ?_
    rw [hname]
    simpa using hpb
  -- snapshot decomposition around the orphan
  obtain ⟨l₁, l₂, hsplit⟩ := List.append_of_mem htg
  have hnod2 : (l₁ ++ tg :: l₂).Nodup := hsplit ▸ hnodup
  have htg1 : tg ∉ l₁ := fun hmem =>
    (List.disjoint_of_nodup_append hnod2) hmem (List.mem_cons_self tg l₂)
  have htg2 : tg ∉ l₂ :=
    (List.nodup_cons.mp (List.Nodup.of_append_right hnod2)).1
  -- the per-service loop does nothing this pass
  have hloop : (get_mcp_servers c).foldl (sync_alb_service_step envOk ports cinfo)
      (w, ⟨[], [], [], []⟩) = (w, ⟨[], [], [], []⟩) :=
    service_fold_skip envOk ports cinfo _ _ hquiet
  -- non-orphan entries of the snapshot are skipped
  have hskip : ∀ e, e ∈ l₁ ∨ e ∈ l₂ → ∀ acc',
      sweep_step envOk ((get_mcp_servers c).map (·.1)) acc' e = acc' := by
    intro e hmem acc'
    have hemem : e ∈ w.aws.targetGroups := by
      rw [hsplit]
      rcases hmem with h1 | h2
      · exact List.mem_append_left _ h1
      · exact List.mem_append_right _ (List.mem_cons_of_mem _ h2)
    have hne : e ≠ tg := by
      rintro rfl
      rcases hmem with h1 | h2
      · exact htg1 h1
      · exact htg2 h2
    exact sweep_step_skip envOk _ e (honly e hemem hne) acc'
  -- evaluate the pass
  have hsync : sync_alb envOk ports cinfo c w =
      (l₁ ++ tg :: l₂).foldl (sweep_step envOk ((get_mcp_servers c).map (·.1)))
        (w, ⟨[], [], [], []⟩) := by
    simp only [sync_alb]
    rw [hloop, ← hsplit]
  rw [List.foldl_append,
    sweep_fold_skip envOk _ l₁ _ (fun e he acc' => hskip e (Or.inl he) acc'),
    List.foldl_cons] at hsync
  -- the orphan's own sweep step runs the ordered cleanup
  have hguard : (tgIsManaged tg && sid != "" &&
      !(((get_mcp_servers c).map (·.1)).contains sid)) = true := by
    simp [hmanaged, hsid, habsent]
  cases hr : rule_exists_for_path w.aws (get_path_pattern sid) with
  | some r =>
    have hcl : cleanup_alb_for_server envOk sid w =
        ({ aws := { targetGroups := w.aws.targetGroups.filter (fun t => t.arn != tg.arn),
                    rules := w.aws.rules.filter (fun r' => r'.arn != r.arn),
                    targets := w.aws.targets },
           tgCache := w.tgCache.filter (fun p => p.1 != sid),
           trace := w.trace ++ [.deleteRule r.arn] ++ [.deleteTG tg.arn] },
         ⟨true, true, []⟩) := by
      simp [cleanup_alb_for_server, delete_rule_for_server, hr,
        delete_target_group_for_server, target_group_exists, envOk, hfind]
    have hstep : sweep_step envOk ((get_mcp_servers c).map (·.1))
        (w, (⟨[], [], [], []⟩ : SyncAlbResult)) tg =
        ({ aws := { targetGroups := w.aws.targetGroups.filter (fun t => t.arn != tg.arn),
                    rules := w.aws.rules.filter (fun r' => r'.arn != r.arn),
                    targets := w.aws.targets },
           tgCache := w.tgCache.filter (fun p => p.1 != sid),
           trace := w.trace ++ [.deleteRule r.arn] ++ [.deleteTG tg.arn] },
         ⟨[], [], [sid], []⟩) := by
      simp only [sweep_step, hsvc]
      rw [if_pos hguard, hcl]
      simp
    rw [hstep, sweep_fold_skip envOk _ l₂ _ (fun e he acc' => hskip e (Or.inr he) acc')]
      at hsync
    rw [hsync]
    refine ⟨?_, List.mem_singleton_self sid, ?_⟩
    · intro tg' hmem hnameeq
      have h1 := List.mem_filter.mp hmem
      have : tg' = tg := huniqname tg' h1.1 hnameeq
      rw [this] at h1
      simp at h1
    · intro r' hr'
      injection hr' with h2
      subst h2
      exact occursBefore_append_pair _ _ [AlbOp.deleteTG tg.arn]
        (List.mem_singleton_self _) w.trace []
  | none =>
    have hcl : cleanup_alb_for_server envOk sid w =
        ({ aws := { targetGroups := w.aws.targetGroups.filter (fun t => t.arn != tg.arn),
                    rules := w.aws.rules,
                    targets := w.aws.targets },
           tgCache := w.tgCache.filter (fun p => p.1 != sid),
           trace := w.trace ++ [.deleteTG tg.arn] },
         ⟨true, true, []⟩) := by
      simp [cleanup_alb_for_server, delete_rule_for_server, hr,
        delete_target_group_for_server, target_group_exists, envOk, hfind]
    have hstep : sweep_step envOk ((get_mcp_servers c).map (·.1))
        (w, (⟨[], [], [], []⟩ : SyncAlbResult)) tg =
        ({ aws := { targetGroups := w.aws.targetGroups.filter (fun t => t.arn != tg.arn),
                    rules := w.aws.rules,
                    targets := w.aws.targets },
           tgCache := w.tgCache.filter (fun p => p.1 != sid),
           trace := w.trace ++ [.deleteTG tg.arn] },
         ⟨[], [], [sid], []⟩) := by
      simp only [sweep_step, hsvc]
      rw [if_pos hguard, hcl]
      simp
    rw [hstep, sweep_fold_skip envOk _ l₂ _ (fun e he acc' => hskip e (Or.inr he) acc')]
      at hsync
    rw [hsync]
    refine ⟨?_, List.mem_singleton_self sid, ?_⟩
    · intro tg' hmem hnameeq
      have h1 := List.mem_filter.mp hmem
      have : tg' = tg := huniqname tg' h1.1 hnameeq
      rw [this] at h1
      simp at h1
    · intro r' hr'
      cases hr'

/-- Witness for C4: the single orphaned pair (`tgOrphan`, `ruleX`) with an
empty desired set — the group is gone, `x` is reported deleted, and the
rule deletion precedes the group deletion in the trace. -/
theorem orphan_cleanup_ordered_witness :
    ("x" ∈ (sync_alb envOk constPorts allRunning emptyComposeData wOrphan).2.deleted) ∧
    occursBefore (AlbOp.deleteRule "ruleX-arn") (AlbOp.deleteTG "arn:tg/tg-mcp-x")
      (sync_alb envOk constPorts allRunning emptyComposeData wOrphan).1.trace = true := by
  have h := orphan_cleanup_ordered constPorts allRunning emptyComposeData wOrphan
    tgOrphan "x" (List.mem_singleton_self _) rfl rfl (by decide)
    (by intro h; cases h) rfl (by simp [wOrphan])
    (by
      intro tg' hmem _
      rcases List.mem_singleton.mp hmem with rfl
      rfl)
    (by
      intro tg' hmem hne
      rcases List.mem_singleton.mp hmem with rfl
      exact absurd rfl hne)
    (by intro e he; cases he)
  exact ⟨h.2.1, h.2.2 ruleX rfl⟩

/-! ## C1: idempotence of the convergence pass -/

/-- Counterexample to C1: with the single always-enabled service `a`, the
second run of `sync_services` reports `a` as `updated` (the restart-on-
exists policy) and the second run of `sync_alb` reports `a` as `created`
(the created/rule flags are set even when the resources pre-existed), so
the second run's summaries are not all empty. -/
theorem convergence_idempotence_counterexample :
    (sync_services composeA (sync_services composeA ⟨[]⟩).1).2.updated = ["a"] ∧
    (sync_alb envOk constPorts allRunning composeA
      (sync_alb envOk constPorts allRunning composeA (initAlbW [])).1).2.created = ["a"] := by
  constructor
  · rfl
  · rfl

theorem svc_step_frame (c : ComposeData) (acc : ComposeState × SyncServicesResult)
    (e : String × McpServerMeta) (sid : String) (hne : sid ≠ e.1) :
    (sid ∈ (sync_services_step c acc e).1.running ↔ sid ∈ acc.1.running) := by
  simp only [sync_services_step]
  split
  · split
    · simp [stop_service, hne]
    · rfl
  · split
    · simp only [start_service]
      split
      · split
        · simp
        · simp [hne]
      · simp
    · rfl

theorem svc_step_self (c : ComposeData) (acc : ComposeState × SyncServicesResult)
    (e : String × McpServerMeta) (hin : e.1 ∈ c.services.map (·.1)) :
    (e.2.disabled = true → e.1 ∉ (sync_services_step c acc e).1.running) ∧
    (e.2.disabled = false → e.1 ∈ (sync_services_step c acc e).1.running) := by
  simp only [sync_services_step]
  constructor
  · intro hd
    rw [if_pos hd]
    split
    · simp [stop_service]
    · next hnex =>
      simp only [service_exists] at hnex
      simpa using hnex
  · intro hd
    rw [if_neg (by simp [hd])]
    split
    · next hnex =>
      by_cases hmem : e.1 ∈ acc.1.running <;> simp [start_service, hin, hmem]
    · next hex =>
      simp only [service_exists] at hex
      simpa [restart_service] using hex

theorem svc_fold_mem (c : ComposeData) :
    ∀ (l : List (String × McpServerMeta)) (acc : ComposeState × SyncServicesResult),
      (l.map (·.1)).Nodup →
      (∀ e ∈ l, e.1 ∈ c.services.map (·.1)) →
      (∀ e ∈ l, (e.2.disabled = true →
          e.1 ∉ (l.foldl (sync_services_step c) acc).1.running) ∧
        (e.2.disabled = false →
          e.1 ∈ (l.foldl (sync_services_step c) acc).1.running)) ∧
      (∀ sid, sid ∉ l.map (·.1) →
        (sid ∈ (l.foldl (sync_services_step c) acc).1.running ↔ sid ∈ acc.1.running)) := by
  intro l
  induction l with
  | nil =>
    intro acc _ _
    exact ⟨fun e he => absurd he (List.not_mem_nil e), fun sid _ => Iff.rfl⟩
  | cons e t ih =>
    intro acc hnd hkeys
    have hnd' : (t.map (·.1)).Nodup := by
      rw [List.map_cons] at hnd
      exact hnd.of_cons
    have hhead : e.1 ∉ t.map (·.1) := by
      rw [List.map_cons] at hnd
      exact (List.nodup_cons.mp hnd).1
    obtain ⟨ihmem, ihframe⟩ := ih (sync_services_step c acc e) hnd'
      (fun x hx => hkeys x (List.mem_cons_of_mem e hx))
    rw [List.foldl_cons]
    constructor
    · intro x hx
      rcases List.mem_cons.mp hx with rfl | hxt
      · have hself := svc_step_self c acc x (hkeys x (List.mem_cons_self x t))
        have hfr := ihframe x.1 hhead
        exact ⟨fun hd => fun hmem => hself.1 hd (hfr.mp hmem),
               fun hd => hfr.mpr (hself.2 hd)⟩
      · exact ihmem x hxt
    · intro sid hsid
      have h1 : sid ∉ t.map (·.1) := fun hmem =>
        hsid (by rw [List.map_cons]; exact List.mem_cons_of_mem _ hmem)
      have h2 : sid ≠ e.1 := fun heq =>
        hsid (by rw [List.map_cons, heq]; exact List.mem_cons_self _ _)
      exact (ihframe sid h1).trans (svc_step_frame c acc e sid h2)

theorem svc_step_second (c : ComposeData) (acc : ComposeState × SyncServicesResult)
    (e : String × McpServerMeta)
    (h : (e.2.disabled = true → e.1 ∉ acc.1.running) ∧
      (e.2.disabled = false → e.1 ∈ acc.1.running)) :
    sync_services_step c acc e =
      (acc.1, if e.2.disabled then acc.2
        else { acc.2 with updated := acc.2.updated ++ [e.1] }) := by
  by_cases hd : e.2.disabled = true
  · have hnex : service_exists acc.1 e.1 = false := by
      simp [service_exists, h.1 hd]
    simp [sync_services_step, hd, hnex]
  · have hex : service_exists acc.1 e.1 = true := by
      simp [service_exists, h.2 (by simpa using hd)]
    simp [sync_services_step, hd, hex, restart_service]

theorem svc_fold_second (c : ComposeData) :
    ∀ (l : List (String × McpServerMeta)) (acc : ComposeState × SyncServicesResult),
      (∀ e ∈ l, (e.2.disabled = true → e.1 ∉ acc.1.running) ∧
        (e.2.disabled = false → e.1 ∈ acc.1.running)) →
      l.foldl (sync_services_step c) acc =
        (acc.1, { acc.2 with updated := acc.2.updated ++
          ((l.filter (fun e => !e.2.disabled)).map (·.1)) }) := by
  intro l
  induction l with
  | nil =>
    intro acc _
    simp
  | cons e t ih =>
    intro acc hall
    rw [List.foldl_cons,
      svc_step_second c acc e (hall e (List.mem_cons_self e t))]
    by_cases hd : e.2.disabled = true
    · rw [if_pos hd]
      rw [ih _ (fun x hx => hall x (List.mem_cons_of_mem e hx))]
      simp [List.filter_cons, hd]
    · rw [if_neg hd]
      rw [ih _ (by
        intro x hx
        exact hall x (List.mem_cons_of_mem e hx))]
      simp [List.filter_cons, Bool.not_eq_true _ ▸ hd, hd]

theorem sync_services_eq_fold (c : ComposeData) (st : ComposeState) :
    sync_services c st =
      (get_mcp_servers c).foldl (sync_services_step c) (st, ⟨[], [], [], []⟩) := by
  simp only [sync_services]
  exact sync_services_orphan_fold_noop c _ _

theorem create_target_group_of_good (ports : String → Option Nat) (sid : String)
    (w : AlbW)
    (h1 : target_group_exists w.aws (get_target_group_name sid) = some (tgArnOf sid))
    (h4 : dictLookup sid w.tgCache = some (tgArnOf sid)) :
    create_target_group ports sid w = (w, some (tgArnOf sid)) := by
  simp only [create_target_group, h1]
  rw [dictInsert_of_lookup_eq _ _ _ h4]

theorem register_target_of_good (ports : String → Option Nat) (sid : String)
    (w : AlbW) (p : Nat) (hp : ports sid = some p)
    (h3 : (tgArnOf sid, "i-dummy", p) ∈ w.aws.targets)
    (h4 : dictLookup sid w.tgCache = some (tgArnOf sid)) :
    register_target ports sid w =
      ({ w with trace := w.trace ++ [.registerTargets (tgArnOf sid) p] }, true) := by
  simp only [register_target, h4, register_target_with, hp]
  rw [if_pos (by simp [h3])]

theorem create_listener_rule_of_good (ports : String → Option Nat) (sid : String)
    (w : AlbW) (r : ListenerRule)
    (h4 : dictLookup sid w.tgCache = some (tgArnOf sid))
    (hr : rule_exists_for_path w.aws (get_path_pattern sid) = some r)
    (hfwd : r.actions.any (forwardsTo (tgArnOf sid)) = true) :
    create_listener_rule ports sid w = (w, some r.arn) := by
  simp only [create_listener_rule, h4, create_listener_rule_with, hr]
  rw [if_pos hfwd]

theorem setup_of_good (ports : String → Option Nat) (sid : String) (w : AlbW)
    (hg : GoodFor ports w.aws w.tgCache sid) :
    (setup_alb_for_server ports sid w).1.aws = w.aws ∧
    (setup_alb_for_server ports sid w).1.tgCache = w.tgCache ∧
    (setup_alb_for_server ports sid w).2 = ⟨true, true, true, []⟩ := by
  obtain ⟨h1, ⟨r, hr, hfwd⟩, ⟨p, hp, h3⟩, h4⟩ := hg
  have e1 := create_target_group_of_good ports sid w h1 h4
  have e2 := register_target_of_good ports sid w p hp h3 h4
  have e3 := create_listener_rule_of_good ports sid
    ({ w with trace := w.trace ++ [.registerTargets (tgArnOf sid) p] }) r h4 hr hfwd
  simp [setup_alb_for_server, e1, e2, e3]

theorem cleanup_of_absent (env : AlbEnv) (sid : String) (w : AlbW)
    (ha : AbsentFor w.aws sid) :
    cleanup_alb_for_server env sid w = (w, ⟨true, true, []⟩) := by
  obtain ⟨h1, h2⟩ := ha
  simp [cleanup_alb_for_server, delete_rule_for_server, h2,
    delete_target_group_for_server, h1]

theorem sync_alb_step_second (env : AlbEnv) (ports : String → Option Nat)
    (cinfo : String → ContainerInfo) (acc : AlbW × SyncAlbResult)
    (e : String × McpServerMeta)
    (hrun : (cinfo e.1).containerExists = true ∧ (cinfo e.1).running = true)
    (hfact : if e.2.disabled then AbsentFor acc.1.aws e.1
      else GoodFor ports acc.1.aws acc.1.tgCache e.1) :
    (sync_alb_service_step env ports cinfo acc e).1.aws = acc.1.aws ∧
    (sync_alb_service_step env ports cinfo acc e).1.tgCache = acc.1.tgCache ∧
    (sync_alb_service_step env ports cinfo acc e).2 =
      (if e.2.disabled then { acc.2 with deleted := acc.2.deleted ++ [e.1] }
       else { acc.2 with created := acc.2.created ++ [e.1] }) := by
  by_cases hd : e.2.disabled = true
  · rw [if_pos hd] at hfact
    have hcl := cleanup_of_absent env e.1 acc.1 hfact
    simp [sync_alb_service_step, hd, hcl]
  · rw [if_neg hd] at hfact
    have hsu := setup_of_good ports e.1 acc.1 hfact
    have hnotskip : (!(cinfo e.1).containerExists || !(cinfo e.1).running) = false := by
      simp [hrun.1, hrun.2]
    simp only [sync_alb_service_step, hd, Bool.false_eq_true, if_false, hnotskip,
      if_neg (by simp : ¬(false = true)), hsu.2.2]
    simp [hd, hsu.1, hsu.2.1, hsu.2.2]

theorem sync_alb_fold_second (env : AlbEnv) (ports : String → Option Nat)
    (cinfo : String → ContainerInfo) :
    ∀ (l : List (String × McpServerMeta)) (acc : AlbW × SyncAlbResult),
      (∀ e ∈ l, (cinfo e.1).containerExists = true ∧ (cinfo e.1).running = true) →
      (∀ e ∈ l, if e.2.disabled then AbsentFor acc.1.aws e.1
        else GoodFor ports acc.1.aws acc.1.tgCache e.1) →
      (l.foldl (sync_alb_service_step env ports cinfo) acc).1.aws = acc.1.aws ∧
      (l.foldl (sync_alb_service_step env ports cinfo) acc).1.tgCache = acc.1.tgCache ∧
      (l.foldl (sync_alb_service_step env ports cinfo) acc).2 =
        { acc.2 with
          created := acc.2.created ++ ((l.filter (fun e => !e.2.disabled)).map (·.1)),
          deleted := acc.2.deleted ++ ((l.filter (fun e => e.2.disabled)).map (·.1)) } := by
  intro l
  induction l with
  | nil =>
    intro acc _ _
    simp
  | cons e t ih =>
    intro acc hrun hfact
    have hstep := sync_alb_step_second env ports cinfo acc e
      (hrun e (List.mem_cons_self e t)) (hfact e (List.mem_cons_self e t))
    rw [List.foldl_cons]
    obtain ⟨ih1, ih2, ih3⟩ := ih (sync_alb_service_step env ports cinfo acc e)
      (fun x hx => hrun x (List.mem_cons_of_mem e hx))
      (by
        intro x hx
        rw [hstep.1, hstep.2.1]
        exact hfact x (List.mem_cons_of_mem e hx))
    rw [ih1, ih2, ih3, hstep.1, hstep.2.1, hstep.2.2]
    refine ⟨rfl, rfl, ?_⟩
    by_cases hd : e.2.disabled = true
    · simp [List.filter_cons, hd]
    · simp [List.filter_cons, hd]

theorem sweep_step_skip_desired (env : AlbEnv) (desired : List String)
    (tg' : TargetGroup)
    (h : ∀ sid', tgServiceTag tg' = some sid' → sid' ∈ desired) :
    ∀ (acc : AlbW × SyncAlbResult), sweep_step env desired acc tg' = acc :=
  sweep_step_skip env desired tg'
    (fun ⟨_, sid', htag, _, hnot⟩ => hnot (h sid' htag))

theorem get_path_pattern_inj {a b : String}
    (h : get_path_pattern a = get_path_pattern b) : a = b := by
  unfold get_path_pattern at h
  have h2 := congrArg String.data h
  simp only [String.data_append] at h2
  have h3 := List.append_cancel_right h2
  have h4 := List.append_cancel_left h3
  exact congrArg String.mk h4

theorem tgServiceTag_mkTG (sid : String) (p : Nat) :
    tgServiceTag (mkTG sid p) = some sid := rfl

/-- The state recorded by one enabled-service creation step of `sync_alb`'s
loop, starting from a state with no resources for the service. -/
theorem sync_alb_step_create_eval (env : AlbEnv) (ports : String → Option Nat)
    (cinfo : String → ContainerInfo) (acc : AlbW × SyncAlbResult)
    (e : String × McpServerMeta) (p : Nat)
    (hd : e.2.disabled = false)
    (hrun : (cinfo e.1).containerExists = true ∧ (cinfo e.1).running = true)
    (hp : ports e.1 = some p)
    (habs : AbsentFor acc.1.aws e.1) :
    (sync_alb_service_step env ports cinfo acc e).1.aws =
      { targetGroups := acc.1.aws.targetGroups ++ [mkTG e.1 p],
        rules := acc.1.aws.rules ++
          [mkCreatedRule e.1 (tgArnOf e.1)
            (get_next_available_priority (acc.1.aws.rules.map (·.priority)))],
        targets := if acc.1.aws.targets.contains (tgArnOf e.1, "i-dummy", p)
          then acc.1.aws.targets
          else acc.1.aws.targets ++ [(tgArnOf e.1, "i-dummy", p)] } ∧
    (sync_alb_service_step env ports cinfo acc e).1.tgCache =
      dictInsert e.1 (tgArnOf e.1) acc.1.tgCache ∧
    (sync_alb_service_step env ports cinfo acc e).2 =
      { acc.2 with created := acc.2.created ++ [e.1] } := by
  obtain ⟨h1, h2⟩ := habs
  have hnotskip : (!(cinfo e.1).containerExists || !(cinfo e.1).running) = false := by
    simp [hrun.1, hrun.2]
  have e1 : create_target_group ports e.1 acc.1 =
      ({ aws := { acc.1.aws with
           targetGroups := acc.1.aws.targetGroups ++ [mkTG e.1 p] },
         tgCache := dictInsert e.1 (tgArnOf e.1) acc.1.tgCache,
         trace := acc.1.trace ++ [.createTG (get_target_group_name e.1),
           .addTags (tgArnOf e.1)] }, some (tgArnOf e.1)) := by
    simp only [create_target_group, h1, hp]
    rfl
  have h2' : List.find? (ruleMatchesPath (get_path_pattern e.1)) acc.1.aws.rules =
      none := h2
  simp only [sync_alb_service_step, hd, Bool.false_eq_true, if_false, hnotskip,
    setup_alb_for_server, e1, register_target, dictLookup_dictInsert_self,
    register_target_with, hp, create_listener_rule, create_listener_rule_with,
    rule_exists_for_path, h2']
  simp [mkCreatedRule]

/-- Convergence facts about a foreign service survive a creation step for a
service whose derived target-group name differs. -/
theorem GoodFor_frame_append (ports : String → Option Nat) (sid : String)
    (aws : AlbState) (cache : List (String × String)) (e : String)
    (p prio : Nat) (tga : String)
    (hne : get_target_group_name e ≠ get_target_group_name sid)
    (hg : GoodFor ports aws cache sid) :
    GoodFor ports
      { targetGroups := aws.targetGroups ++ [mkTG e p],
        rules := aws.rules ++ [mkCreatedRule e tga prio],
        targets := if aws.targets.contains (tgArnOf e, "i-dummy", p)
          then aws.targets else aws.targets ++ [(tgArnOf e, "i-dummy", p)] }
      (dictInsert e (tgArnOf e) cache) sid := by
  obtain ⟨h1, ⟨r, hr, hfwd⟩, ⟨q, hq, h3⟩, h4⟩ := hg
  have hneid : sid ≠ e := fun heq => hne (by rw [heq])
  refine ⟨?_, ⟨r, ?_, hfwd⟩, ⟨q, hq, ?_⟩, ?_⟩
  · simp only [target_group_exists] at h1 ⊢
    rcases Option.map_eq_some'.mp h1 with ⟨tg0, hfind, harn⟩
    rw [find?_append_some hfind]
    simp [harn]
  · simp only [rule_exists_for_path] at hr ⊢
    exact find?_append_some hr
  · split
    · exact h3
    · exact List.mem_append_left _ h3
  · rw [dictLookup_dictInsert_of_ne e sid (tgArnOf e) hneid]
    exact h4

/-- Absence facts about a foreign service survive a creation step for a
service with a different id and derived name. -/
theorem AbsentFor_frame_append (sid : String) (aws : AlbState) (e : String)
    (p prio : Nat) (tga : String)
    (hne : get_target_group_name e ≠ get_target_group_name sid)
    (ha : AbsentFor aws sid) :
    AbsentFor
      { targetGroups := aws.targetGroups ++ [mkTG e p],
        rules := aws.rules ++ [mkCreatedRule e tga prio],
        targets := if aws.targets.contains (tgArnOf e, "i-dummy", p)
          then aws.targets else aws.targets ++ [(tgArnOf e, "i-dummy", p)] } sid := by
  obtain ⟨h1, h2⟩ := ha
  have hneid : sid ≠ e := fun heq => hne (by rw [heq])
  constructor
  · simp only [target_group_exists] at h1 ⊢
    rcases Option.map_eq_none'.mp h1 with hfind
    rw [find?_append_none hfind]
    simpa [mkTG] using hne
  · simp only [rule_exists_for_path] at h2 ⊢
    rw [find?_append_none h2]
    have hpat : get_path_pattern e ≠ get_path_pattern sid :=
      fun heq => hneid.symm (get_path_pattern_inj heq)
    simp [ruleMatchesPath, mkCreatedRule, Ne.symm hpat]

/-- The first convergence run, over services with pairwise distinct derived
names, none of which have any ALB resources yet: afterwards every enabled
service is fully converged and every disabled service still has nothing;
convergence/absence facts about unrelated names are preserved; and every
target group in the final state was already there or belongs to one of the
processed services. -/
theorem sync_alb_fold_first (env : AlbEnv) (ports : String → Option Nat)
    (cinfo : String → ContainerInfo) :
    ∀ (l : List (String × McpServerMeta)) (acc : AlbW × SyncAlbResult),
      (l.map (·.1)).Nodup →
      (∀ a ∈ l.map (·.1), ∀ b ∈ l.map (·.1),
        get_target_group_name a = get_target_group_name b → a = b) →
      (∀ e ∈ l, e.2.disabled = false → (ports e.1).isSome) →
      (∀ e ∈ l, (cinfo e.1).containerExists = true ∧ (cinfo e.1).running = true) →
      (∀ e ∈ l, AbsentFor acc.1.aws e.1) →
      (∀ e ∈ l, if e.2.disabled then
          AbsentFor (l.foldl (sync_alb_service_step env ports cinfo) acc).1.aws e.1
        else GoodFor ports
          (l.foldl (sync_alb_service_step env ports cinfo) acc).1.aws
          (l.foldl (sync_alb_service_step env ports cinfo) acc).1.tgCache e.1) ∧
      (∀ sid, (∀ e ∈ l, get_target_group_name e.1 ≠ get_target_group_name sid) →
        (GoodFor ports acc.1.aws acc.1.tgCache sid →
          GoodFor ports (l.foldl (sync_alb_service_step env ports cinfo) acc).1.aws
            (l.foldl (sync_alb_service_step env ports cinfo) acc).1.tgCache sid) ∧
        (AbsentFor acc.1.aws sid →
          AbsentFor (l.foldl (sync_alb_service_step env ports cinfo) acc).1.aws sid)) ∧
      (∀ tg ∈ (l.foldl (sync_alb_service_step env ports cinfo) acc).1.aws.targetGroups,
        tg ∈ acc.1.aws.targetGroups ∨ ∃ e ∈ l, tgServiceTag tg = some e.1) := by
  intro l
  induction l with
  | nil =>
    intro acc _ _ _ _ _
    exact ⟨fun e he => absurd he (List.not_mem_nil e),
      fun sid _ => ⟨id, id⟩, fun tg htg => Or.inl htg⟩
  | cons e t ih =>
    intro acc hnd hinj hports hrun habs
    have hnd' : (t.map (·.1)).Nodup := by
      rw [List.map_cons] at hnd
      exact hnd.of_cons
    have hhead : e.1 ∉ t.map (·.1) := by
      rw [List.map_cons] at hnd
      exact (List.nodup_cons.mp hnd).1
    have hinj' : ∀ a ∈ t.map (·.1), ∀ b ∈ t.map (·.1),
        get_target_group_name a = get_target_group_name b → a = b := by
      intro a ha b hb
      exact hinj a (by rw [List.map_cons]; exact List.mem_cons_of_mem _ ha)
        b (by rw [List.map_cons]; exact List.mem_cons_of_mem _ hb)
    have hname_t : ∀ x ∈ t, get_target_group_name x.1 ≠ get_target_group_name e.1 := by
      intro x hx heq
      have hids : x.1 = e.1 := hinj x.1
        (by rw [List.map_cons]; exact List.mem_cons_of_mem _ (List.mem_map_of_mem _ hx))
        e.1 (by rw [List.map_cons]; exact List.mem_cons_self _ _) heq
      exact hhead (hids ▸ List.mem_map_of_mem (·.1) hx)
    rw [List.foldl_cons]
    by_cases hd : e.2.disabled = true
    · -- disabled head: the cleanup finds nothing, state unchanged
      have hstate : (sync_alb_service_step env ports cinfo acc e).1 = acc.1 := by
        have hcl := cleanup_of_absent env e.1 acc.1 (habs e (List.mem_cons_self e t))
        simp [sync_alb_service_step, hd, hcl]
      obtain ⟨ihfact, ihframe, ihtg⟩ := ih (sync_alb_service_step env ports cinfo acc e)
        hnd' hinj'
        (fun x hx => hports x (List.mem_cons_of_mem e hx))
        (fun x hx => hrun x (List.mem_cons_of_mem e hx))
        (by
          intro x hx
          rw [hstate]
          exact habs x (List.mem_cons_of_mem e hx))
      refine ⟨?_, ?_, ?_⟩
      · intro x hx
        rcases List.mem_cons.mp hx with rfl | hxt
        · rw [if_pos hd]
          exact ((ihframe x.1 (fun y hy => hname_t y hy)).2
            (by rw [hstate]; exact (habs x (List.mem_cons_self x t))))
        · exact ihfact x hxt
      · intro sid hdist
        have hfr := ihframe sid (fun y hy => hdist y (List.mem_cons_of_mem e hy))
        rw [hstate] at hfr
        exact hfr
      · intro tg htg
        rcases ihtg tg htg with hin | ⟨x, hxt, hxs⟩
        · rw [hstate] at hin
          exact Or.inl hin
        · exact Or.inr ⟨x, List.mem_cons_of_mem e hxt, hxs⟩
    · -- enabled head: create everything for `e`
      have hd' : e.2.disabled = false := by simpa using hd
      obtain ⟨p, hp⟩ := Option.isSome_iff_exists.mp
        (hports e (List.mem_cons_self e t) hd')
      have heval := sync_alb_step_create_eval env ports cinfo acc e p hd'
        (hrun e (List.mem_cons_self e t)) hp (habs e (List.mem_cons_self e t))
      have hgood : GoodFor ports (sync_alb_service_step env ports cinfo acc e).1.aws
          (sync_alb_service_step env ports cinfo acc e).1.tgCache e.1 := by
        rw [heval.1, heval.2.1]
        obtain ⟨h1, h2⟩ := habs e (List.mem_cons_self e t)
        refine ⟨?_, ?_, ?_, dictLookup_dictInsert_self _ _ _⟩
        · simp only [target_group_exists] at h1 ⊢
          rw [find?_append_none (Option.map_eq_none'.mp h1)]
          simp [mkTG]
        · refine ⟨mkCreatedRule e.1 (tgArnOf e.1)
            (get_next_available_priority (acc.1.aws.rules.map (·.priority))), ?_, ?_⟩
          · simp only [rule_exists_for_path] at h2 ⊢
            rw [find?_append_none h2]
            simp [ruleMatchesPath, mkCreatedRule]
          · simp [mkCreatedRule, forwardsTo]
        · refine ⟨p, hp, ?_⟩
          split
          · next hcont => simpa using hcont
          · exact List.mem_append_right _ (List.mem_singleton_self _)
      obtain ⟨ihfact, ihframe, ihtg⟩ := ih (sync_alb_service_step env ports cinfo acc e)
        hnd' hinj'
        (fun x hx => hports x (List.mem_cons_of_mem e hx))
        (fun x hx => hrun x (List.mem_cons_of_mem e hx))
        (by
          intro x hx
          rw [heval.1]
          exact AbsentFor_frame_append x.1 acc.1.aws e.1 p _ _
            (Ne.symm (hname_t x hx))
            (habs x (List.mem_cons_of_mem e hx)))
      refine ⟨?_, ?_, ?_⟩
      · intro x hx
        rcases List.mem_cons.mp hx with rfl | hxt
        · rw [if_neg (by simp [hd'])]
          exact (ihframe x.1 (fun y hy => hname_t y hy)).1 hgood
        · exact ihfact x hxt
      · intro sid hdist
        have hde : get_target_group_name e.1 ≠ get_target_group_name sid :=
          hdist e (List.mem_cons_self e t)
        have hfr := ihframe sid (fun y hy => hdist y (List.mem_cons_of_mem e hy))
        constructor
        · intro hg
          refine hfr.1 ?_
          rw [heval.1, heval.2.1]
          exact GoodFor_frame_append ports sid acc.1.aws acc.1.tgCache e.1 p _ _ hde hg
        · intro ha
          refine hfr.2 ?_
          rw [heval.1]
          exact AbsentFor_frame_append sid acc.1.aws e.1 p _ _ hde ha
      · intro tg htg
        rcases ihtg tg htg with hin | ⟨x, hxt, hxs⟩
        · rw [heval.1] at hin
          rcases List.mem_append.mp hin with hin2 | hsingle
          · exact Or.inl hin2
          · refine Or.inr ⟨e, List.mem_cons_self e t, ?_⟩
            rw [List.mem_singleton.mp hsingle]
            exact tgServiceTag_mkTG e.1 p
        · exact Or.inr ⟨x, List.mem_cons_of_mem e hxt, hxs⟩

/-- C1 (amended): convergence is idempotent at the STATE level but not at
the summary level.  For every desired configuration whose service ids
derive pairwise distinct target-group names, with every enabled service
having a known port and a running container, all remote calls succeeding,
and the load balancer starting empty: the second `sync_services` run
leaves the runtime state unchanged and reports `created = []` and
`stopped = []` — but `updated` lists every enabled service (the
restart-on-exists policy); and the second `sync_alb` run leaves the ALB
state and the ARN cache unchanged and reports `updated = []` — but
`created` lists every enabled service again (the created/rule flags are
set even for pre-existing resources) and `deleted` lists every disabled
service again. -/
theorem convergence_second_run (c : ComposeData) (ports : String → Option Nat)
    (cinfo : String → ContainerInfo) (st0 : ComposeState)
    (cache0 : List (String × String))
    (hnd : (c.services.map (·.1)).Nodup)
    (hinj : ∀ a ∈ c.services.map (·.1), ∀ b ∈ c.services.map (·.1),
        get_target_group_name a = get_target_group_name b → a = b)
    (hports : ∀ e ∈ get_mcp_servers c, e.2.disabled = false → (ports e.1).isSome)
    (hcinfo : ∀ sid, (cinfo sid).containerExists = true ∧ (cinfo sid).running = true) :
    sync_services c (sync_services c st0).1 =
      ((sync_services c st0).1, ⟨[], enabledIds c, [], []⟩) ∧
    (sync_alb envOk ports cinfo c
        (sync_alb envOk ports cinfo c (initAlbW cache0)).1).1.aws =
      (sync_alb envOk ports cinfo c (initAlbW cache0)).1.aws ∧
    (sync_alb envOk ports cinfo c
        (sync_alb envOk ports cinfo c (initAlbW cache0)).1).1.tgCache =
      (sync_alb envOk ports cinfo c (initAlbW cache0)).1.tgCache ∧
    (sync_alb envOk ports cinfo c
        (sync_alb envOk ports cinfo c (initAlbW cache0)).1).2 =
      ⟨enabledIds c, [], disabledIds c, []⟩ := by
  have hndm : ((get_mcp_servers c).map (·.1)).Nodup := by
    rw [get_mcp_servers_keys]
    exact hnd
  have hkeysm : ∀ e ∈ get_mcp_servers c, e.1 ∈ c.services.map (·.1) := by
    intro e he
    rw [← get_mcp_servers_keys]
    exact List.mem_map_of_mem (·.1) he
  have hinjm : ∀ a ∈ (get_mcp_servers c).map (·.1), ∀ b ∈ (get_mcp_servers c).map (·.1),
      get_target_group_name a = get_target_group_name b → a = b := by
    rw [get_mcp_servers_keys]
    exact hinj
  constructor
  · -- container side
    have hfacts : ∀ e ∈ get_mcp_servers c,
        (e.2.disabled = true → e.1 ∉ (sync_services c st0).1.running) ∧
        (e.2.disabled = false → e.1 ∈ (sync_services c st0).1.running) := by
      intro e he
      rw [sync_services_eq_fold c st0]
      exact (svc_fold_mem c (get_mcp_servers c) (st0, ⟨[], [], [], []⟩)
        hndm hkeysm).1 e he
    rw [sync_services_eq_fold c (sync_services c st0).1,
      svc_fold_second c (get_mcp_servers c)
        ((sync_services c st0).1, ⟨[], [], [], []⟩) hfacts]
    simp [enabledIds]
  · -- load balancer side
    have habs0 : ∀ e ∈ get_mcp_servers c,
        AbsentFor (initAlbW cache0, (⟨[], [], [], []⟩ : SyncAlbResult)).1.aws e.1 :=
      fun e _ => ⟨rfl, rfl⟩
    have hrunm : ∀ e ∈ get_mcp_servers c,
        (cinfo e.1).containerExists = true ∧ (cinfo e.1).running = true :=
      fun e _ => hcinfo e.1
    obtain ⟨hfact1, hframe1, htg1⟩ := sync_alb_fold_first envOk ports cinfo
      (get_mcp_servers c) (initAlbW cache0, ⟨[], [], [], []⟩)
      hndm hinjm hports hrunm habs0
    have hsweep1 : ∀ tg ∈ ((get_mcp_servers c).foldl
        (sync_alb_service_step envOk ports cinfo)
        (initAlbW cache0, ⟨[], [], [], []⟩)).1.aws.targetGroups,
        ∀ acc', sweep_step envOk ((get_mcp_servers c).map (·.1)) acc' tg = acc' := by
      intro tg htg
      rcases htg1 tg htg with hin | ⟨e, he, hs⟩
      · exact absurd hin (List.not_mem_nil tg)
      · refine sweep_step_skip_desired envOk _ tg ?_
        intro sid' htag
        rw [hs] at htag
        injection htag with h
        rw [← h]
        exact List.mem_map_of_mem (·.1) he
    have hrun1eq : sync_alb envOk ports cinfo c (initAlbW cache0) =
        (get_mcp_servers c).foldl (sync_alb_service_step envOk ports cinfo)
          (initAlbW cache0, ⟨[], [], [], []⟩) := by
      simp only [sync_alb]
      exact sweep_fold_skip envOk _ _ _ (fun e he acc' => hsweep1 e he acc')
    obtain ⟨h2aws, h2cache, h2res⟩ := sync_alb_fold_second envOk ports cinfo
      (get_mcp_servers c)
      (((get_mcp_servers c).foldl (sync_alb_service_step envOk ports cinfo)
        (initAlbW cache0, ⟨[], [], [], []⟩)).1, ⟨[], [], [], []⟩)
      (fun e _ => hcinfo e.1) hfact1
    have hsweep2 : ∀ tg ∈ ((get_mcp_servers c).foldl
        (sync_alb_service_step envOk ports cinfo)
        ((((get_mcp_servers c).foldl (sync_alb_service_step envOk ports cinfo)
          (initAlbW cache0, ⟨[], [], [], []⟩)).1), ⟨[], [], [], []⟩)).1.aws.targetGroups,
        ∀ acc', sweep_step envOk ((get_mcp_servers c).map (·.1)) acc' tg = acc' := by
      rw [h2aws]
      exact hsweep1
    have hrun2eq : sync_alb envOk ports cinfo c
        ((get_mcp_servers c).foldl (sync_alb_service_step envOk ports cinfo)
          (initAlbW cache0, ⟨[], [], [], []⟩)).1 =
        (get_mcp_servers c).foldl (sync_alb_service_step envOk ports cinfo)
          ((((get_mcp_servers c).foldl (sync_alb_service_step envOk ports cinfo)
            (initAlbW cache0, ⟨[], [], [], []⟩)).1), ⟨[], [], [], []⟩) := by
      simp only [sync_alb]
      exact sweep_fold_skip envOk _ _ _ (fun e he acc' => hsweep2 e he acc')
    rw [hrun1eq, hrun2eq]
    refine ⟨h2aws, h2cache, ?_⟩
    rw [h2res]
    simp [enabledIds, disabledIds]

/-- Witness for C1 (amended): desired set `{a enabled, b disabled}` from
empty initial state — the second runs report `updated = [a]` on the
container side and `created = [a]`, `deleted = [b]` on the ALB side. -/
theorem convergence_second_run_witness :
    (sync_services composeAB (sync_services composeAB ⟨[]⟩).1).2 =
      ⟨[], ["a"], [], []⟩ ∧
    (sync_alb envOk constPorts allRunning composeAB
      (sync_alb envOk constPorts allRunning composeAB (initAlbW [])).1).2 =
      ⟨["a"], [], ["b"], []⟩ := by
  have h := convergence_second_run composeAB constPorts allRunning ⟨[]⟩ []
    (by decide) (by decide) (fun e _ _ => rfl) (fun sid => ⟨rfl, rfl⟩)
  constructor
  · rw [h.1]
    rfl
  · rw [h.2.2.2]
    rfl

end MCPOrch
